import Mathlib

/-!
Verification of the chunk-partitioning and reconstruction engine of
`vs_tiletools.py`: spatial pad/crop, tile, untile geometry, temporal
tpad/window/unwindow, and the crossfade primitive.

Frames are modelled as total pixel functions `Int → Int → ℚ` together with
clip-level dimensions and format data, matching VapourSynth's constant-format
clips.  External VapourSynth plugins (FillBorders, cv_inpaint, the bilinear
resampler used for gradient masks) are collaborators specified only at their
interface; they appear as explicit function parameters.  Python integers are
`Int`, Python `round` is round-half-to-even, Python `//` and `%` on
non-negative operands agree with `Int`'s Euclidean operations.
-/

set_option maxHeartbeats 1000000

namespace VsTiletools

/-- A pixel plane: a total function from coordinates to a sample value.
Single-plane model; chroma planes are tracked only through the subsampling
alignment constraints carried by the format. -/
def Pix : Type := Int → Int → ℚ

/-- The all-black plane, used as the default element of frame lists. -/
def pix0 : Pix := fun _ _ => 0

instance : Inhabited Pix := ⟨pix0⟩

/-- Constant format descriptor of a clip. -/
structure Fmt where
  subWShift : Nat
  subHShift : Nat
  numPlanes : Nat
  isFloat   : Bool
  bits      : Nat
  deriving DecidableEq, Repr

/-- `1 << subsampling_w`. -/
def Fmt.subW (f : Fmt) : Int := 2 ^ f.subWShift

/-- `1 << subsampling_h`. -/
def Fmt.subH (f : Fmt) : Int := 2 ^ f.subHShift

/-- Error classification for the exceptions raised by the library. -/
inductive Err where
  | invalidInput
  | unalignedValue
  | negativeValue
  | invalidOverlap
  | tooManyChunks
  | missingMetadata
  | incompleteParameters
  | chunkCountMismatch
  | cropExceedsFrame
  | invalidMode
  | tooManyColorValues
  | colorOutOfRange
  | emptyClip
  deriving DecidableEq, Repr

/-- A Python padding-mode argument: a string, a scalar number, a list of
numbers, or `None`. -/
inductive PadArg where
  | str (s : String)
  | num (v : ℚ)
  | lst (vs : List ℚ)
  | none'
  deriving DecidableEq, Repr

/-- Python `round` on an exact value: round half to even. -/
def roundHalfEven (q : ℚ) : Int :=
  if q - (⌊q⌋ : ℚ) < 1/2 then ⌊q⌋
  else if 1/2 < q - (⌊q⌋ : ℚ) then ⌊q⌋ + 1
  else if ⌊q⌋ % 2 = 0 then ⌊q⌋ else ⌊q⌋ + 1

/-- Modelled from the spec: the round-half-up rule that the spec fixes for
`rescale()`.  Used only to compare the spec's wording with the code. -/
def roundHalfUpSpec (q : ℚ) : Int := ⌊q + 1/2⌋

/-- `_split_overlap(overlap, unit)` from `untile`'s `_crop_tiles`
(src/vs_tiletools.py lines 809-819). -/
def split_overlap (overlap unit : Int) : Int × Int :=
  if overlap ≤ 0 then (0, 0)
  else
    (fun o =>
      (fun h2 => (h2, o - h2))
        (if 1 < unit then o / 2 - (o / 2) % unit else o / 2))
    (if 1 < unit then overlap - overlap % unit else overlap)

lemma dvd_sub_emod (x u : Int) : u ∣ (x - x % u) := by
  have h := Int.emod_emod_of_dvd x (dvd_refl u)
  have : x - x % u = u * (x / u) := by
    have := Int.emod_def x u
    omega
  exact Dvd.intro _ this.symm

/-- Claim C7: for every non-negative overlap and positive alignment,
`_split_overlap` returns `(near, far)` with `near + far` equal to the overlap
truncated down to a multiple of the alignment, `near` the alignment-floored
half of that truncated overlap, and both halves multiples of the alignment. -/
theorem split_overlap_spec (overlap unit : Int)
    (ho : 0 ≤ overlap) (hu : 0 < unit) :
    (split_overlap overlap unit).1 + (split_overlap overlap unit).2
      = overlap - overlap % unit ∧
    (split_overlap overlap unit).1
      = (overlap - overlap % unit) / 2 - ((overlap - overlap % unit) / 2) % unit ∧
    unit ∣ (split_overlap overlap unit).1 ∧
    unit ∣ (split_overlap overlap unit).2 := by
  by_cases hz : overlap ≤ 0
  · have h0 : overlap = 0 := le_antisymm hz ho
    subst h0
    simp [split_overlap]
  · by_cases h1 : 1 < unit
    · have he : split_overlap overlap unit
          = ((overlap - overlap % unit) / 2 - ((overlap - overlap % unit) / 2) % unit,
             (overlap - overlap % unit)
               - ((overlap - overlap % unit) / 2 - ((overlap - overlap % unit) / 2) % unit)) := by
        simp [split_overlap, if_neg hz, if_pos h1]
      rw [he]
      refine ⟨by ring, rfl, dvd_sub_emod _ unit, ?_⟩
      exact dvd_sub (dvd_sub_emod overlap unit) (dvd_sub_emod _ unit)
    · -- unit = 1
      have hu1 : unit = 1 := by omega
      subst hu1
      have he : split_overlap overlap 1 = (overlap / 2, overlap - overlap / 2) := by
        simp [split_overlap, if_neg hz]
      rw [he]
      refine ⟨?_, ?_, one_dvd _, one_dvd _⟩
      · simp [Int.emod_one]
      · simp [Int.emod_one]

/-- Witness for C7 at `overlap = 5`, `unit = 2`. -/
theorem split_overlap_spec_witness :
    (0 : Int) ≤ 5 ∧ (0 : Int) < 2 ∧
    ((split_overlap 5 2).1 + (split_overlap 5 2).2 = 5 - 5 % 2 ∧
     (split_overlap 5 2).1 = (5 - 5 % 2) / 2 - ((5 - 5 % 2) / 2) % 2 ∧
     (2 : Int) ∣ (split_overlap 5 2).1 ∧
     (2 : Int) ∣ (split_overlap 5 2).2) :=
  ⟨by decide, by decide, split_overlap_spec 5 2 (by decide) (by decide)⟩

/-- Padding modes handled by the FillBorders plugin. -/
def fb_modes : List String := ["repeat", "mirror", "fillmargins", "fixborders"]

/-- Padding modes handled by the cv_inpaint plugin. -/
def cv_modes : List String := ["telea", "ns", "fsr"]

/-- `_check_modulus`: a value passes when the subsampling factor is 1 or the
value is a multiple of it (stated as the condition under which no error is
raised). -/
def check_modulus (value sub : Int) : Prop := 1 < sub → value % sub = 0

instance (value sub : Int) : Decidable (check_modulus value sub) := by
  unfold check_modulus; infer_instance

/-- Result of `_normalize_color`: `None` (format-default black), a list of
converted per-plane values, or `False` (not a color). -/
inductive ColorResult where
  | default'
  | vals (vs : List ℚ)
  | notColor
  deriving DecidableEq, Repr

/-- Range check and bit-depth conversion of `_normalize_color` (after
broadcasting). -/
def normConvert (fmt : Fmt) (vals : List ℚ) : Except Err ColorResult :=
  if vals.all (fun v => decide (0 ≤ v) && decide (v ≤ 255)) then
    if fmt.isFloat then .ok (.vals (vals.map (fun v => v / 255)))
    else .ok (.vals (vals.map (fun v =>
      ((roundHalfEven (v * ((2 ^ fmt.bits - 1 : Int) : ℚ) / 255) : Int) : ℚ))))
  else .error .colorOutOfRange

/-- Broadcasting step of `_normalize_color`: a short list is extended with its
last value; a list longer than the plane count is rejected. -/
def normBroadcast (fmt : Fmt) (raw : List ℚ) : Except Err ColorResult :=
  if raw.length < fmt.numPlanes then
    normConvert fmt (raw ++ List.replicate (fmt.numPlanes - raw.length) raw.getLast!)
  else if fmt.numPlanes < raw.length then .error .tooManyColorValues
  else normConvert fmt raw

/-- `_normalize_color(mode, clip_format, ...)`. -/
def normalize_color (mode : PadArg) (fmt : Fmt) : Except Err ColorResult :=
  match mode with
  | .none' => .ok .default'
  | .str s =>
      if s = "black" ∨ s = "none" ∨ s = "None" then .ok .default' else .ok .notColor
  | .num v => normBroadcast fmt [v]
  | .lst vs => if 0 < vs.length then normBroadcast fmt vs else .ok .notColor

/-- First-plane value that `AddBorders` paints with for a normalized color
(`None` is the format-default black, modelled as 0). -/
def addBordersColor (c : ColorResult) : ℚ :=
  match c with
  | .default' => 0
  | .vals vs => vs.headD 0
  | .notColor => 0

/-- Pad Record `tiletools_padprops`. -/
structure PadProps where
  orig_w : Int
  orig_h : Int
  pad_l  : Int
  pad_r  : Int
  pad_t  : Int
  pad_b  : Int
  deriving DecidableEq, Repr

/-- Tile Record `tiletools_tileprops`. -/
structure TileProps where
  tile_w    : Int
  tile_h    : Int
  overlap_w : Int
  overlap_h : Int
  orig_w    : Int
  orig_h    : Int
  discard   : Bool
  deriving DecidableEq, Repr

/-- Window Record `tiletools_windowprops`. -/
structure WindowProps where
  orig_length   : Int
  window_length : Int
  overlap       : Int
  padding       : String
  deriving DecidableEq, Repr

/-- Temporal-pad record `tiletools_tpadprops`. -/
structure TpadProps where
  start_pad : Int
  end_pad   : Int
  deriving DecidableEq, Repr

/-- A constant-format clip: format, dimensions, frame planes, and the
side-channel records the library reads and writes. -/
structure SClip where
  fmt    : Fmt
  width  : Nat
  height : Nat
  frames : List Pix
  padProps    : Option PadProps    := none
  tileProps   : Option TileProps   := none
  windowProps : Option WindowProps := none
  tpadProps   : Option TpadProps   := none

/-- `AddBorders` geometry: the original plane placed at offset `(l, t)` inside
a `(w + l + r) × (h + t + b)` canvas; border pixels come from `border`. -/
def padPix (p : Pix) (w h l t : Int) (border : Pix) : Pix :=
  fun x y =>
    if l ≤ x ∧ x < l + w ∧ t ≤ y ∧ y < t + h then p (x - l) (y - t) else border x y

/-- Wrap padding (stack copies of the clip, then crop to size): the padded
plane is the source plane indexed modulo its own extent. -/
def wrapPix (p : Pix) (w h l t : Int) : Pix :=
  fun x y => p ((x - l) % w) ((y - t) % h)

/-- A constant plane. -/
def constPix (v : ℚ) : Pix := fun _ _ => v

/-- External border-fill collaborator (the FillBorders and cv_inpaint
plugins): given the mode name, the source plane and the four margins, it
produces border content for the padded plane.  Only the border region of its
output is ever visible, because the original plane is kept inside. -/
def ExtFill : Type := String → Pix → Int → Int → Int → Int → Pix

/-- The solid-color branch of `pad` (normalize the color, `AddBorders`). -/
def padColorFrames (c : SClip) (left top : Int) (mode : PadArg) :
    Except Err (List Pix) :=
  match normalize_color mode c.fmt with
  | .error e => .error e
  | .ok .notColor => .error .invalidMode
  | .ok .default' =>
      .ok (c.frames.map (fun p =>
        padPix p (c.width : Int) (c.height : Int) left top
          (constPix (addBordersColor .default'))))
  | .ok (.vals vs) =>
      .ok (c.frames.map (fun p =>
        padPix p (c.width : Int) (c.height : Int) left top
          (constPix (addBordersColor (.vals vs)))))

/-- Frame content produced by `pad`'s mode dispatch: FillBorders/cv_inpaint
modes keep the original inside and take border content from the external
collaborator, `"wrap"` tiles the clip periodically, and anything else is
treated as a solid color. -/
def padFrames (c : SClip) (left right top bottom : Int) (ext : ExtFill) :
    PadArg → Except Err (List Pix)
  | .str s =>
      if s ∈ fb_modes ∨ s ∈ cv_modes then
        .ok (c.frames.map (fun p =>
          padPix p (c.width : Int) (c.height : Int) left top
            (ext s p left right top bottom)))
      else if s = "wrap" then
        .ok (c.frames.map (fun p =>
          wrapPix p (c.width : Int) (c.height : Int) left top))
      else padColorFrames c left top (.str s)
  | .num v => padColorFrames c left top (.num v)
  | .lst vs => padColorFrames c left top (.lst vs)
  | .none' => padColorFrames c left top .none'

/-- `pad(clip, left, right, top, bottom, mode)`. -/
def pad (c : SClip) (left right top bottom : Int) (mode : PadArg) (ext : ExtFill) :
    Except Err SClip :=
  if c.width = 0 ∨ c.height = 0 then .error .invalidInput
  else if left < 0 ∨ right < 0 ∨ top < 0 ∨ bottom < 0 then .error .negativeValue
  else if ¬ (check_modulus left c.fmt.subW ∧ check_modulus right c.fmt.subW ∧
             check_modulus top c.fmt.subH ∧ check_modulus bottom c.fmt.subH) then
    .error .unalignedValue
  else if left = 0 ∧ right = 0 ∧ top = 0 ∧ bottom = 0 then
    .ok { c with padProps := some ⟨c.width, c.height, left, right, top, bottom⟩ }
  else
    (padFrames c left right top bottom ext mode).map
      (fun fs =>
        { fmt := c.fmt,
          width := c.width + (left + right).toNat,
          height := c.height + (top + bottom).toNat,
          frames := fs,
          padProps := some ⟨c.width, c.height, left, right, top, bottom⟩,
          tileProps := c.tileProps,
          windowProps := c.windowProps,
          tpadProps := c.tpadProps })

/-- The tail of `crop` shared by the manual and auto paths: zero-margin early
return, subsampling checks, frame-bound check, `std.Crop`, and removal of the
Pad Record.  (`std.Crop` itself rejects negative values, which only the manual
path pre-checks.) -/
def cropApply (c : SClip) (left right top bottom : Int) : Except Err SClip :=
  if left = 0 ∧ right = 0 ∧ top = 0 ∧ bottom = 0 then
    .ok { c with padProps := none }
  else if ¬ (check_modulus left c.fmt.subW ∧ check_modulus right c.fmt.subW ∧
             check_modulus top c.fmt.subH ∧ check_modulus bottom c.fmt.subH) then
    .error .unalignedValue
  else if (c.width : Int) ≤ left + right ∨ (c.height : Int) ≤ top + bottom then
    .error .cropExceedsFrame
  else if left < 0 ∨ right < 0 ∨ top < 0 ∨ bottom < 0 then
    .error .invalidInput
  else
    .ok { fmt := c.fmt,
          width := c.width - (left + right).toNat,
          height := c.height - (top + bottom).toNat,
          frames := c.frames.map (fun p => fun x y => p (x + left) (y + top)),
          padProps := none,
          tileProps := c.tileProps,
          windowProps := c.windowProps,
          tpadProps := c.tpadProps }

/-- `crop(clip, left, right, top, bottom)`: manual margins override; with no
margins, auto mode reads the Pad Record and rescales it to the clip's current
dimensions using Python `round`. -/
def crop (c : SClip) (left? right? top? bottom? : Option Int) : Except Err SClip :=
  if c.width = 0 ∨ c.height = 0 then .error .invalidInput
  else if left?.isSome || right?.isSome || top?.isSome || bottom?.isSome then
    if left?.getD 0 < 0 ∨ right?.getD 0 < 0 ∨ top?.getD 0 < 0 ∨ bottom?.getD 0 < 0 then
      .error .negativeValue
    else cropApply c (left?.getD 0) (right?.getD 0) (top?.getD 0) (bottom?.getD 0)
  else
    match c.padProps with
    | none => .error .missingMetadata
    | some pr =>
        cropApply c
          (roundHalfEven ((pr.pad_l : ℚ) *
            ((c.width : ℚ) / ((pr.orig_w + pr.pad_l + pr.pad_r : Int) : ℚ))))
          (roundHalfEven ((pr.pad_r : ℚ) *
            ((c.width : ℚ) / ((pr.orig_w + pr.pad_l + pr.pad_r : Int) : ℚ))))
          (roundHalfEven ((pr.pad_t : ℚ) *
            ((c.height : ℚ) / ((pr.orig_h + pr.pad_t + pr.pad_b : Int) : ℚ))))
          (roundHalfEven ((pr.pad_b : ℚ) *
            ((c.height : ℚ) / ((pr.orig_h + pr.pad_t + pr.pad_b : Int) : ℚ))))

lemma check_modulus_zero (s : Int) : check_modulus 0 s := fun _ => Int.zero_emod s

lemma check_modulus_of_dvd {v s : Int} (h : s ∣ v) : check_modulus v s :=
  fun _ => Int.emod_eq_zero_of_dvd h

lemma roundHalfEven_intCast (n : Int) : roundHalfEven (n : ℚ) = n := by
  simp only [roundHalfEven, Int.floor_intCast, sub_self]
  norm_num

lemma roundHalfEven_zero : roundHalfEven 0 = 0 := by
  simpa using roundHalfEven_intCast 0

/-- A sample external fill collaborator used by witnesses. -/
def extFill0 : ExtFill := fun _ p _ _ _ _ => p

/-- Claim C6: padding with all four margins zero returns the input frames and
dimensions unchanged but still attaches an all-zero Pad Record, and a
subsequent auto-mode crop succeeds as a no-op that removes the record instead
of failing with missing metadata. -/
theorem pad_zero_auto_crop_noop (c : SClip) (mode : PadArg) (ext : ExtFill)
    (hW : 0 < c.width) (hH : 0 < c.height) :
    pad c 0 0 0 0 mode ext
      = .ok { c with padProps := some ⟨(c.width : Int), (c.height : Int), 0, 0, 0, 0⟩ } ∧
    crop { c with padProps := some ⟨(c.width : Int), (c.height : Int), 0, 0, 0, 0⟩ }
        none none none none
      = .ok { c with padProps := none } := by
  have hne : ¬ (c.width = 0 ∨ c.height = 0) := by omega
  constructor
  · simp [pad, hne, check_modulus_zero]
  · simp [crop, cropApply, hne, roundHalfEven_zero]

/-- Concrete format with no subsampling used by witnesses. -/
def fmt0 : Fmt := ⟨0, 0, 3, false, 8⟩

/-- Concrete clip used by witnesses. -/
def clipA : SClip := { fmt := fmt0, width := 2, height := 2, frames := [pix0] }

/-- Witness for C6 at a concrete 2×2 clip and mode `"mirror"`. -/
theorem pad_zero_auto_crop_noop_witness :
    (0 < clipA.width ∧ 0 < clipA.height) ∧
    (pad clipA 0 0 0 0 (.str "mirror") extFill0
      = .ok { clipA with
              padProps := some ⟨(clipA.width : Int), (clipA.height : Int), 0, 0, 0, 0⟩ } ∧
     crop { clipA with
            padProps := some ⟨(clipA.width : Int), (clipA.height : Int), 0, 0, 0, 0⟩ }
         none none none none
      = .ok { clipA with padProps := none }) :=
  ⟨⟨by decide, by decide⟩,
   pad_zero_auto_crop_noop clipA (.str "mirror") extFill0 (by decide) (by decide)⟩

/-- Concrete padded-then-halved clip: a 15×8 frame padded by 5 on the left
(padded size 20×8) and then externally resized to 10×8. -/
def c5clip : SClip :=
  { fmt := fmt0, width := 10, height := 8, frames := [pix0],
    padProps := some ⟨15, 8, 5, 0, 0, 0⟩ }

/-- Claim C5 counterexample: on the clip above the stored left pad of 5
rescales to `5 * 10/20 = 2.5`; the code keeps width `10 - 2 = 8` (Python
`round`, half to even), while rounding half up as claimed would give margin 3
and width 7. -/
theorem crop_auto_half_even_counterexample :
    (crop c5clip none none none none).map SClip.width = .ok 8 ∧
    (10 : Int) - roundHalfUpSpec ((5 : ℚ) * ((10 : ℚ) / (20 : ℚ))) = 7 := by
  have hrhe : roundHalfEven ((5 : ℚ) / 2) = 2 := by
    have hf : (⌊(5 : ℚ) / 2⌋ : Int) = 2 := by norm_num
    rw [roundHalfEven, hf]
    norm_num
  constructor
  · have hcrop : crop c5clip none none none none = cropApply c5clip 2 0 0 0 := by
      simp only [crop, c5clip]
      norm_num [hrhe, roundHalfEven_zero]
    rw [hcrop]
    have happ : cropApply c5clip 2 0 0 0
        = .ok { fmt := c5clip.fmt, width := 8, height := 8,
                frames := c5clip.frames.map (fun p => fun x y => p (x + 2) (y + 0)),
                padProps := none, tileProps := none,
                windowProps := none, tpadProps := none } := by
      simp only [cropApply, c5clip]
      norm_num [check_modulus]
      simp [fmt0, Fmt.subW]
    rw [happ]
    rfl
  · rw [roundHalfUpSpec]
    norm_num

/-- Claim C5 (amended): auto-mode crop computes each margin by rescaling the
stored pad by the ratio of current to original padded dimensions using Python
`round` — round half to even, not half up; consequently after an exact
integer `k`-fold resize of the padded clip the rescaled margins are exactly
`k` times the stored pads and auto-crop removes exactly the scaled border. -/
theorem crop_auto_rescale (fmt : Fmt) (frames : List Pix)
    (tp : Option TileProps) (wp : Option WindowProps) (sp : Option TpadProps)
    (pr : PadProps) (k : Int) (hk : 0 < k)
    (hw : 0 < pr.orig_w) (hh : 0 < pr.orig_h)
    (hl : 0 ≤ pr.pad_l) (hr : 0 ≤ pr.pad_r) (ht : 0 ≤ pr.pad_t) (hb : 0 ≤ pr.pad_b)
    (hdl : fmt.subW ∣ pr.pad_l) (hdr : fmt.subW ∣ pr.pad_r)
    (hdt : fmt.subH ∣ pr.pad_t) (hdb : fmt.subH ∣ pr.pad_b) :
    ∃ out,
      crop { fmt := fmt,
             width := (k * (pr.orig_w + pr.pad_l + pr.pad_r)).toNat,
             height := (k * (pr.orig_h + pr.pad_t + pr.pad_b)).toNat,
             frames := frames, padProps := some pr,
             tileProps := tp, windowProps := wp, tpadProps := sp }
          none none none none = .ok out ∧
      out.width = (k * pr.orig_w).toNat ∧
      out.height = (k * pr.orig_h).toNat ∧
      out.padProps = none ∧
      roundHalfEven ((pr.pad_l : ℚ) *
        ((((k * (pr.orig_w + pr.pad_l + pr.pad_r)).toNat : Nat) : ℚ) /
          ((pr.orig_w + pr.pad_l + pr.pad_r : Int) : ℚ))) = k * pr.pad_l ∧
      roundHalfEven ((pr.pad_t : ℚ) *
        ((((k * (pr.orig_h + pr.pad_t + pr.pad_b)).toNat : Nat) : ℚ) /
          ((pr.orig_h + pr.pad_t + pr.pad_b : Int) : ℚ))) = k * pr.pad_t := by
  have hWpos : 0 < pr.orig_w + pr.pad_l + pr.pad_r := by omega
  have hHpos : 0 < pr.orig_h + pr.pad_t + pr.pad_b := by omega
  have hkW : 0 < k * (pr.orig_w + pr.pad_l + pr.pad_r) := mul_pos hk hWpos
  have hkH : 0 < k * (pr.orig_h + pr.pad_t + pr.pad_b) := mul_pos hk hHpos
  have hmargin : ∀ v D : Int, 0 < D → 0 < k * D →
      roundHalfEven ((v : ℚ) * ((((k * D).toNat : Nat) : ℚ) / ((D : Int) : ℚ)))
        = k * v := by
    intro v D hD hkD
    have hD0 : ((D : Int) : ℚ) ≠ 0 := by
      exact_mod_cast hD.ne'
    have hcast : (((k * D).toNat : Nat) : ℚ) = (k : ℚ) * (D : ℚ) := by
      have h1 : (((k * D).toNat : Nat) : Int) = k * D := Int.toNat_of_nonneg hkD.le
      calc (((k * D).toNat : Nat) : ℚ)
          = ((((k * D).toNat : Nat) : Int) : ℚ) := by push_cast; ring
        _ = ((k * D : Int) : ℚ) := by rw [h1]
        _ = (k : ℚ) * (D : ℚ) := by push_cast; ring
    have harg : (v : ℚ) * ((((k * D).toNat : Nat) : ℚ) / ((D : Int) : ℚ))
        = ((k * v : Int) : ℚ) := by
      rw [hcast]
      field_simp
      ring
    rw [harg, roundHalfEven_intCast]
  have hml := hmargin pr.pad_l _ hWpos hkW
  have hmr := hmargin pr.pad_r _ hWpos hkW
  have hmt := hmargin pr.pad_t _ hHpos hkH
  have hmb := hmargin pr.pad_b _ hHpos hkH
  have hne : ¬ ((k * (pr.orig_w + pr.pad_l + pr.pad_r)).toNat = 0 ∨
                (k * (pr.orig_h + pr.pad_t + pr.pad_b)).toNat = 0) := by
    omega
  have hcrop : crop { fmt := fmt,
                      width := (k * (pr.orig_w + pr.pad_l + pr.pad_r)).toNat,
                      height := (k * (pr.orig_h + pr.pad_t + pr.pad_b)).toNat,
                      frames := frames, padProps := some pr,
                      tileProps := tp, windowProps := wp, tpadProps := sp }
          none none none none
        = cropApply { fmt := fmt,
                      width := (k * (pr.orig_w + pr.pad_l + pr.pad_r)).toNat,
                      height := (k * (pr.orig_h + pr.pad_t + pr.pad_b)).toNat,
                      frames := frames, padProps := some pr,
                      tileProps := tp, windowProps := wp, tpadProps := sp }
          (k * pr.pad_l) (k * pr.pad_r) (k * pr.pad_t) (k * pr.pad_b) := by
    rw [crop, if_neg hne]
    simp only [Option.isSome_none, Bool.or_self, Bool.false_eq_true, if_false]
    rw [hml, hmr, hmt, hmb]
  by_cases hzero : k * pr.pad_l = 0 ∧ k * pr.pad_r = 0 ∧ k * pr.pad_t = 0 ∧ k * pr.pad_b = 0
  · have happ : cropApply { fmt := fmt,
                            width := (k * (pr.orig_w + pr.pad_l + pr.pad_r)).toNat,
                            height := (k * (pr.orig_h + pr.pad_t + pr.pad_b)).toNat,
                            frames := frames, padProps := some pr,
                            tileProps := tp, windowProps := wp, tpadProps := sp }
          (k * pr.pad_l) (k * pr.pad_r) (k * pr.pad_t) (k * pr.pad_b)
        = .ok { fmt := fmt,
                width := (k * (pr.orig_w + pr.pad_l + pr.pad_r)).toNat,
                height := (k * (pr.orig_h + pr.pad_t + pr.pad_b)).toNat,
                frames := frames, padProps := none,
                tileProps := tp, windowProps := wp, tpadProps := sp } := by
      simp only [cropApply, if_pos hzero]
    have hpl : pr.pad_l = 0 ∧ pr.pad_r = 0 := by
      constructor <;> nlinarith [hzero.1, hzero.2.1]
    have hpt : pr.pad_t = 0 ∧ pr.pad_b = 0 := by
      constructor <;> nlinarith [hzero.2.2.1, hzero.2.2.2]
    refine ⟨_, by rw [hcrop, happ], ?_, ?_, rfl, hml, hmt⟩
    · simp only
      have h' : pr.orig_w + pr.pad_l + pr.pad_r = pr.orig_w := by omega
      rw [h']
    · simp only
      have h' : pr.orig_h + pr.pad_t + pr.pad_b = pr.orig_h := by omega
      rw [h']
  · have hmodl : check_modulus (k * pr.pad_l) fmt.subW :=
      check_modulus_of_dvd (Dvd.dvd.mul_left hdl k)
    have hmodr : check_modulus (k * pr.pad_r) fmt.subW :=
      check_modulus_of_dvd (Dvd.dvd.mul_left hdr k)
    have hmodt : check_modulus (k * pr.pad_t) fmt.subH :=
      check_modulus_of_dvd (Dvd.dvd.mul_left hdt k)
    have hmodb : check_modulus (k * pr.pad_b) fmt.subH :=
      check_modulus_of_dvd (Dvd.dvd.mul_left hdb k)
    have hbound : ¬ ((((k * (pr.orig_w + pr.pad_l + pr.pad_r)).toNat : Nat) : Int)
          ≤ k * pr.pad_l + k * pr.pad_r ∨
        (((k * (pr.orig_h + pr.pad_t + pr.pad_b)).toNat : Nat) : Int)
          ≤ k * pr.pad_t + k * pr.pad_b) := by
      push_neg
      have h1 : k * pr.pad_l + k * pr.pad_r < k * (pr.orig_w + pr.pad_l + pr.pad_r) := by
        nlinarith
      have h2 : k * pr.pad_t + k * pr.pad_b < k * (pr.orig_h + pr.pad_t + pr.pad_b) := by
        nlinarith
      constructor <;> omega
    have hneg : ¬ (k * pr.pad_l < 0 ∨ k * pr.pad_r < 0 ∨ k * pr.pad_t < 0 ∨
        k * pr.pad_b < 0) := by
      push_neg
      refine ⟨?_, ?_, ?_, ?_⟩ <;> positivity
    have happ : cropApply { fmt := fmt,
                            width := (k * (pr.orig_w + pr.pad_l + pr.pad_r)).toNat,
                            height := (k * (pr.orig_h + pr.pad_t + pr.pad_b)).toNat,
                            frames := frames, padProps := some pr,
                            tileProps := tp, windowProps := wp, tpadProps := sp }
          (k * pr.pad_l) (k * pr.pad_r) (k * pr.pad_t) (k * pr.pad_b)
        = .ok { fmt := fmt,
                width := (k * (pr.orig_w + pr.pad_l + pr.pad_r)).toNat
                  - (k * pr.pad_l + k * pr.pad_r).toNat,
                height := (k * (pr.orig_h + pr.pad_t + pr.pad_b)).toNat
                  - (k * pr.pad_t + k * pr.pad_b).toNat,
                frames := frames.map (fun p => fun x y =>
                  p (x + k * pr.pad_l) (y + k * pr.pad_t)),
                padProps := none,
                tileProps := tp, windowProps := wp, tpadProps := sp } := by
      simp only [cropApply, if_neg hzero, if_neg hbound, if_neg hneg]
      rw [if_neg (not_not_intro ⟨hmodl, hmodr, hmodt, hmodb⟩)]
    refine ⟨_, by rw [hcrop, happ], ?_, ?_, rfl, hml, hmt⟩
    · simp only
      have hring : k * (pr.orig_w + pr.pad_l + pr.pad_r)
          = k * pr.orig_w + (k * pr.pad_l + k * pr.pad_r) := by ring
      have hnl : 0 ≤ k * pr.pad_l := by positivity
      have hnr : 0 ≤ k * pr.pad_r := by positivity
      have hno : 0 ≤ k * pr.orig_w := by positivity
      omega
    · simp only
      have hring : k * (pr.orig_h + pr.pad_t + pr.pad_b)
          = k * pr.orig_h + (k * pr.pad_t + k * pr.pad_b) := by ring
      have hnt : 0 ≤ k * pr.pad_t := by positivity
      have hnb : 0 ≤ k * pr.pad_b := by positivity
      have hno : 0 ≤ k * pr.orig_h := by positivity
      omega

/-- The condition under which `_normalize_color` accepts the argument as a
color (including the `None`/`"black"` default). -/
def colorModeOk (mode : PadArg) (fmt : Fmt) : Bool :=
  match normalize_color mode fmt with
  | .ok .default' => true
  | .ok (.vals _) => true
  | .ok .notColor => false
  | .error _ => false

/-- The condition under which `pad` accepts a mode: a FillBorders or
cv_inpaint mode name, `"wrap"`, or a color argument. -/
def padModeOk (mode : PadArg) (fmt : Fmt) : Bool :=
  match mode with
  | .str s =>
      decide (s ∈ fb_modes) || decide (s ∈ cv_modes) || decide (s = "wrap")
        || colorModeOk (.str s) fmt
  | .num v => colorModeOk (.num v) fmt
  | .lst vs => colorModeOk (.lst vs) fmt
  | .none' => colorModeOk .none' fmt

lemma getD_map_eval (fs : List Pix) (G : Pix → Pix) (i : Nat) (x y : Int)
    (h : ∀ p, G p x y = p x y) :
    ((fs.map G).getD i pix0) x y = (fs.getD i pix0) x y := by
  induction fs generalizing i with
  | nil => rfl
  | cons a tl ih =>
      cases i with
      | zero => simpa using h a
      | succ n => simpa using ih n

lemma padPix_interior (p : Pix) (w h l t : Int) (bp : Pix) (x y : Int)
    (hx0 : 0 ≤ x) (hxw : x < w) (hy0 : 0 ≤ y) (hyh : y < h) :
    padPix p w h l t bp (x + l) (y + t) = p x y := by
  unfold padPix
  rw [if_pos (by omega)]
  rw [show x + l - l = x by ring, show y + t - t = y by ring]

lemma wrapPix_interior (p : Pix) (w h l t : Int) (x y : Int)
    (hx0 : 0 ≤ x) (hxw : x < w) (hy0 : 0 ≤ y) (hyh : y < h) :
    wrapPix p w h l t (x + l) (y + t) = p x y := by
  unfold wrapPix
  rw [show x + l - l = x by ring, show y + t - t = y by ring,
    Int.emod_eq_of_lt hx0 hxw, Int.emod_eq_of_lt hy0 hyh]

lemma rescale_ratio_one (v : Int) (n : Nat) (D : Int) (hD : 0 < D)
    (hnD : (n : Int) = D) :
    roundHalfEven ((v : ℚ) * ((n : ℚ) / ((D : Int) : ℚ))) = v := by
  have hD0 : ((D : Int) : ℚ) ≠ 0 := by exact_mod_cast hD.ne'
  have hcast : ((n : Nat) : ℚ) = ((D : Int) : ℚ) := by exact_mod_cast hnD
  rw [hcast, div_self hD0, mul_one, roundHalfEven_intCast]

lemma padColorFrames_spec (c : SClip) (l t : Int) (mode : PadArg)
    (hcm : colorModeOk mode c.fmt = true) :
    ∃ v : ℚ, padColorFrames c l t mode
      = .ok (c.frames.map (fun p =>
          padPix p (c.width : Int) (c.height : Int) l t (constPix v))) := by
  unfold colorModeOk at hcm
  cases hcol : normalize_color mode c.fmt with
  | error e => rw [hcol] at hcm; simp at hcm
  | ok col =>
      cases col with
      | default' => exact ⟨0, by simp [padColorFrames, hcol, addBordersColor]⟩
      | vals vs => exact ⟨vs.headD 0, by simp [padColorFrames, hcol, addBordersColor]⟩
      | notColor => rw [hcol] at hcm; simp at hcm

lemma pad_pos_spec (c : SClip) (l r t b : Int) (mode : PadArg) (ext : ExtFill)
    (hW : 0 < c.width) (hH : 0 < c.height)
    (hl : 0 ≤ l) (hr : 0 ≤ r) (ht : 0 ≤ t) (hb : 0 ≤ b)
    (hdl : c.fmt.subW ∣ l) (hdr : c.fmt.subW ∣ r)
    (hdt : c.fmt.subH ∣ t) (hdb : c.fmt.subH ∣ b)
    (hmode : padModeOk mode c.fmt = true)
    (hnz : ¬ (l = 0 ∧ r = 0 ∧ t = 0 ∧ b = 0)) :
    ∃ G : Pix → Pix,
      (∀ p x y, 0 ≤ x → x < (c.width : Int) → 0 ≤ y → y < (c.height : Int) →
        G p (x + l) (y + t) = p x y) ∧
      pad c l r t b mode ext
        = .ok { fmt := c.fmt,
                width := c.width + (l + r).toNat,
                height := c.height + (t + b).toNat,
                frames := c.frames.map G,
                padProps := some ⟨(c.width : Int), (c.height : Int), l, r, t, b⟩,
                tileProps := c.tileProps,
                windowProps := c.windowProps,
                tpadProps := c.tpadProps } := by
  have hne : ¬ (c.width = 0 ∨ c.height = 0) := by omega
  have hneg : ¬ (l < 0 ∨ r < 0 ∨ t < 0 ∨ b < 0) := by omega
  have hmod : check_modulus l c.fmt.subW ∧ check_modulus r c.fmt.subW ∧
      check_modulus t c.fmt.subH ∧ check_modulus b c.fmt.subH :=
    ⟨check_modulus_of_dvd hdl, check_modulus_of_dvd hdr,
     check_modulus_of_dvd hdt, check_modulus_of_dvd hdb⟩
  rw [pad, if_neg hne, if_neg hneg, if_neg (not_not_intro hmod), if_neg hnz]
  cases mode with
  | str s =>
      simp only [padFrames]
      by_cases hfb : s ∈ fb_modes ∨ s ∈ cv_modes
      · refine ⟨fun p => padPix p (c.width : Int) (c.height : Int) l t
            (ext s p l r t b), ?_, ?_⟩
        · intro p x y hx0 hxw hy0 hyh
          exact padPix_interior _ _ _ _ _ _ _ _ hx0 hxw hy0 hyh
        · rw [if_pos hfb]
          rfl
      · by_cases hwrap : s = "wrap"
        · refine ⟨fun p => wrapPix p (c.width : Int) (c.height : Int) l t, ?_, ?_⟩
          · intro p x y hx0 hxw hy0 hyh
            exact wrapPix_interior _ _ _ _ _ _ _ hx0 hxw hy0 hyh
          · rw [if_neg hfb, if_pos hwrap]
            rfl
        · have hcm : colorModeOk (.str s) c.fmt = true := by
            unfold padModeOk at hmode
            rcases Bool.or_eq_true_iff.mp hmode with h' | h'
            · rcases Bool.or_eq_true_iff.mp h' with h'' | h''
              · rcases Bool.or_eq_true_iff.mp h'' with h3 | h3
                · exact absurd (of_decide_eq_true h3) (fun hh => hfb (Or.inl hh))
                · exact absurd (of_decide_eq_true h3) (fun hh => hfb (Or.inr hh))
              · exact absurd (of_decide_eq_true h'') hwrap
            · exact h'
          obtain ⟨v, hv⟩ := padColorFrames_spec c l t (.str s) hcm
          refine ⟨fun p => padPix p (c.width : Int) (c.height : Int) l t
              (constPix v), ?_, ?_⟩
          · intro p x y hx0 hxw hy0 hyh
            exact padPix_interior _ _ _ _ _ _ _ _ hx0 hxw hy0 hyh
          · rw [if_neg hfb, if_neg hwrap, hv]
            rfl
  | num v =>
      simp only [padFrames]
      obtain ⟨w, hw'⟩ := padColorFrames_spec c l t (.num v) hmode
      refine ⟨fun p => padPix p (c.width : Int) (c.height : Int) l t
          (constPix w), ?_, ?_⟩
      · intro p x y hx0 hxw hy0 hyh
        exact padPix_interior _ _ _ _ _ _ _ _ hx0 hxw hy0 hyh
      · rw [hw']
        rfl
  | lst vs =>
      simp only [padFrames]
      obtain ⟨w, hw'⟩ := padColorFrames_spec c l t (.lst vs) hmode
      refine ⟨fun p => padPix p (c.width : Int) (c.height : Int) l t
          (constPix w), ?_, ?_⟩
      · intro p x y hx0 hxw hy0 hyh
        exact padPix_interior _ _ _ _ _ _ _ _ hx0 hxw hy0 hyh
      · rw [hw']
        rfl
  | none' =>
      simp only [padFrames]
      obtain ⟨w, hw'⟩ := padColorFrames_spec c l t .none' hmode
      refine ⟨fun p => padPix p (c.width : Int) (c.height : Int) l t
          (constPix w), ?_, ?_⟩
      · intro p x y hx0 hxw hy0 hyh
        exact padPix_interior _ _ _ _ _ _ _ _ hx0 hxw hy0 hyh
      · rw [hw']
        rfl

lemma crop_auto_unfold (c : SClip) (pr : PadProps) (hp : c.padProps = some pr)
    (hne : ¬ (c.width = 0 ∨ c.height = 0)) :
    crop c none none none none
      = cropApply c
          (roundHalfEven ((pr.pad_l : ℚ) *
            ((c.width : ℚ) / ((pr.orig_w + pr.pad_l + pr.pad_r : Int) : ℚ))))
          (roundHalfEven ((pr.pad_r : ℚ) *
            ((c.width : ℚ) / ((pr.orig_w + pr.pad_l + pr.pad_r : Int) : ℚ))))
          (roundHalfEven ((pr.pad_t : ℚ) *
            ((c.height : ℚ) / ((pr.orig_h + pr.pad_t + pr.pad_b : Int) : ℚ))))
          (roundHalfEven ((pr.pad_b : ℚ) *
            ((c.height : ℚ) / ((pr.orig_h + pr.pad_t + pr.pad_b : Int) : ℚ)))) := by
  rw [crop, if_neg hne]
  simp only [Option.isSome_none, Bool.or_self, Bool.false_eq_true, if_false, hp]

/-- Claim C1: for every frame, every choice of non-negative
subsampling-aligned margins and every valid padding mode, auto-mode crop of
the padded clip returns the original frames pixel-for-pixel with exactly the
original dimensions. -/
theorem pad_crop_roundtrip (c : SClip) (l r t b : Int) (mode : PadArg) (ext : ExtFill)
    (hW : 0 < c.width) (hH : 0 < c.height)
    (hl : 0 ≤ l) (hr : 0 ≤ r) (ht : 0 ≤ t) (hb : 0 ≤ b)
    (hdl : c.fmt.subW ∣ l) (hdr : c.fmt.subW ∣ r)
    (hdt : c.fmt.subH ∣ t) (hdb : c.fmt.subH ∣ b)
    (hmode : padModeOk mode c.fmt = true) :
    ∃ p, pad c l r t b mode ext = .ok p ∧
      ∃ out, crop p none none none none = .ok out ∧
        out.width = c.width ∧ out.height = c.height ∧
        out.frames.length = c.frames.length ∧
        ∀ i x y, 0 ≤ x → x < (c.width : Int) → 0 ≤ y → y < (c.height : Int) →
          (out.frames.getD i pix0) x y = (c.frames.getD i pix0) x y := by
  have hne : ¬ (c.width = 0 ∨ c.height = 0) := by omega
  by_cases hz : l = 0 ∧ r = 0 ∧ t = 0 ∧ b = 0
  · obtain ⟨h1, h2, h3, h4⟩ := hz
    subst h1; subst h2; subst h3; subst h4
    refine ⟨{ c with padProps := some ⟨(c.width : Int), (c.height : Int), 0, 0, 0, 0⟩ },
      by simp [pad, hne, check_modulus_zero],
      { c with padProps := none },
      by simp [crop, cropApply, hne, roundHalfEven_zero],
      rfl, rfl, rfl, ?_⟩
    intro i x y _ _ _ _
    rfl
  · obtain ⟨G, hG, hpad⟩ :=
      pad_pos_spec c l r t b mode ext hW hH hl hr ht hb hdl hdr hdt hdb hmode hz
    have hneP : ¬ (c.width + (l + r).toNat = 0 ∨ c.height + (t + b).toNat = 0) := by
      omega
    have hml : roundHalfEven ((l : ℚ) *
        (((c.width + (l + r).toNat : Nat) : ℚ) / (((c.width : Int) + l + r : Int) : ℚ)))
          = l :=
      rescale_ratio_one l _ _ (by omega) (by omega)
    have hmr : roundHalfEven ((r : ℚ) *
        (((c.width + (l + r).toNat : Nat) : ℚ) / (((c.width : Int) + l + r : Int) : ℚ)))
          = r :=
      rescale_ratio_one r _ _ (by omega) (by omega)
    have hmt : roundHalfEven ((t : ℚ) *
        (((c.height + (t + b).toNat : Nat) : ℚ) / (((c.height : Int) + t + b : Int) : ℚ)))
          = t :=
      rescale_ratio_one t _ _ (by omega) (by omega)
    have hmb : roundHalfEven ((b : ℚ) *
        (((c.height + (t + b).toNat : Nat) : ℚ) / (((c.height : Int) + t + b : Int) : ℚ)))
          = b :=
      rescale_ratio_one b _ _ (by omega) (by omega)
    have hcropP : crop { fmt := c.fmt,
                         width := c.width + (l + r).toNat,
                         height := c.height + (t + b).toNat,
                         frames := c.frames.map G,
                         padProps := some ⟨(c.width : Int), (c.height : Int), l, r, t, b⟩,
                         tileProps := c.tileProps,
                         windowProps := c.windowProps,
                         tpadProps := c.tpadProps } none none none none
        = cropApply { fmt := c.fmt,
                      width := c.width + (l + r).toNat,
                      height := c.height + (t + b).toNat,
                      frames := c.frames.map G,
                      padProps := some ⟨(c.width : Int), (c.height : Int), l, r, t, b⟩,
                      tileProps := c.tileProps,
                      windowProps := c.windowProps,
                      tpadProps := c.tpadProps } l r t b := by
      rw [crop_auto_unfold _ ⟨(c.width : Int), (c.height : Int), l, r, t, b⟩ rfl hneP]
      simp only
      rw [hml, hmr, hmt, hmb]
    have hmods : check_modulus l c.fmt.subW ∧ check_modulus r c.fmt.subW ∧
        check_modulus t c.fmt.subH ∧ check_modulus b c.fmt.subH :=
      ⟨check_modulus_of_dvd hdl, check_modulus_of_dvd hdr,
       check_modulus_of_dvd hdt, check_modulus_of_dvd hdb⟩
    have hbound : ¬ (((c.width + (l + r).toNat : Nat) : Int) ≤ l + r ∨
        ((c.height + (t + b).toNat : Nat) : Int) ≤ t + b) := by
      omega
    have hneg2 : ¬ (l < 0 ∨ r < 0 ∨ t < 0 ∨ b < 0) := by omega
    have happ : cropApply { fmt := c.fmt,
                            width := c.width + (l + r).toNat,
                            height := c.height + (t + b).toNat,
                            frames := c.frames.map G,
                            padProps := some ⟨(c.width : Int), (c.height : Int), l, r, t, b⟩,
                            tileProps := c.tileProps,
                            windowProps := c.windowProps,
                            tpadProps := c.tpadProps } l r t b
        = .ok { fmt := c.fmt,
                width := (c.width + (l + r).toNat) - (l + r).toNat,
                height := (c.height + (t + b).toNat) - (t + b).toNat,
                frames := (c.frames.map G).map (fun p => fun x y => p (x + l) (y + t)),
                padProps := none,
                tileProps := c.tileProps,
                windowProps := c.windowProps,
                tpadProps := c.tpadProps } := by
      simp only [cropApply, if_neg hz, if_neg hbound, if_neg hneg2]
      rw [if_neg (not_not_intro hmods)]
    refine ⟨_, hpad, _, hcropP.trans happ, by simp, by simp, by simp, ?_⟩
    intro i x y hx0 hxw hy0 hyh
    simp only [List.map_map]
    exact getD_map_eval c.frames _ i x y (fun p => hG p x y hx0 hxw hy0 hyh)

/-- Witness for C1: a 2×2 clip padded by 1 on the left in `"mirror"` mode. -/
theorem pad_crop_roundtrip_witness :
    (0 < clipA.width ∧ 0 < clipA.height ∧ (0 : Int) ≤ 1 ∧
     clipA.fmt.subW ∣ 1 ∧ padModeOk (.str "mirror") clipA.fmt = true) ∧
    (∃ p, pad clipA 1 0 0 0 (.str "mirror") extFill0 = .ok p ∧
      ∃ out, crop p none none none none = .ok out ∧
        out.width = clipA.width ∧ out.height = clipA.height ∧
        out.frames.length = clipA.frames.length ∧
        ∀ i x y, 0 ≤ x → x < (clipA.width : Int) → 0 ≤ y → y < (clipA.height : Int) →
          (out.frames.getD i pix0) x y = (clipA.frames.getD i pix0) x y) :=
  ⟨⟨by decide, by decide, by decide, by decide, by decide⟩,
   pad_crop_roundtrip clipA 1 0 0 0 (.str "mirror") extFill0
     (by decide) (by decide) (by decide) (by decide) (by decide) (by decide)
     (by decide) (by decide) (by decide) (by decide) (by decide)⟩

/-- `std.CropAbs(clip, width, height, left, top)`. -/
def cropAbs (c : SClip) (w h : Nat) (l t : Int) : SClip :=
  { c with width := w, height := h,
           frames := c.frames.map (fun p => fun x y => p (x + l) (y + t)) }

/-- `std.Crop(clip, right=r, bottom=b)`: trimming only the far edges moves no
pixel, so the planes are unchanged. -/
def cropRB (c : SClip) (r b : Nat) : SClip :=
  { c with width := c.width - r, height := c.height - b }

/-- One frame of every clip, then the tails, with the common clip length as
the explicit frame count (`std.Interleave` requires equal lengths). -/
def interleaveN (cs : List (List Pix)) : Nat → List Pix
  | 0 => []
  | n + 1 => cs.filterMap List.head? ++ interleaveN (cs.map List.tail) n

/-- `std.Interleave(clips, modify_duration=False)`. -/
def interleave (cs : List (List Pix)) : List Pix :=
  interleaveN cs (match cs with | [] => 0 | c :: _ => c.length)

/-- `std.SelectEvery(cycle=k, offsets=[i], modify_duration=False)`, with the
input length as recursion fuel. -/
def selectEveryGo (k i : Nat) : Nat → List Pix → List Pix
  | 0, _ => []
  | fuel + 1, c =>
      if i < c.length then c.getD i pix0 :: selectEveryGo k i fuel (c.drop k)
      else []

/-- Frames `i, i + k, i + 2k, …` of a clip. -/
def selectEvery (c : List Pix) (k i : Nat) : List Pix :=
  selectEveryGo k i c.length c

/-- An overlap argument: a single value or a `[w, h]` pair. -/
inductive OvArg where
  | one (v : Int)
  | two (w h : Int)
  deriving DecidableEq, Repr

/-- Horizontal overlap selected from the argument. -/
def ovW : OvArg → Int
  | .one v => v
  | .two w _ => w

/-- Vertical overlap selected from the argument. -/
def ovH : OvArg → Int
  | .one v => v
  | .two _ h => h

/-- Tile count along one axis in the padding path:
`1 + (0 if total <= size else ceil((total - size) / stride))`. -/
def tilesCountPad (total size stride : Nat) : Nat :=
  1 + (if total ≤ size then 0 else (total - size + stride - 1) / stride)

/-- Tile count along one axis in the discard path:
`1 + (total - size) // stride` (requires `size ≤ total`). -/
def tilesCountDiscard (total size stride : Nat) : Nat :=
  1 + (total - size) / stride

/-- The padding-mode type check of `tile` (validity of color values is left
to `pad`). -/
def tileModeOk : PadArg → Bool
  | .str s =>
      decide (s ∈ fb_modes) || decide (s ∈ cv_modes) || decide (s = "wrap")
        || decide (s = "black")
  | .num _ => true
  | .lst _ => true
  | .none' => false

/-- `max_tiles = 1024` in `tile` and `untile`. -/
def max_tiles : Nat := 1024

/-- The crop/pad preparation step of `tile`, including each branch's mode
check and its `max_tiles` guard. -/
def tilePrep (c : SClip) (W H sx sy : Nat) (padding : PadArg) (ext : ExtFill) :
    Except Err SClip :=
  if padding = .str "discard" then
    if c.width < W ∨ c.height < H then .error .invalidInput
    else if max_tiles <
        tilesCountDiscard c.width W sx * tilesCountDiscard c.height H sy then
      .error .tooManyChunks
    else
      .ok (cropRB c
        (c.width - (W + (tilesCountDiscard c.width W sx - 1) * sx))
        (c.height - (H + (tilesCountDiscard c.height H sy - 1) * sy)))
  else if ¬ tileModeOk padding then .error .invalidMode
  else if max_tiles < tilesCountPad c.width W sx * tilesCountPad c.height H sy then
    .error .tooManyChunks
  else if (W + (tilesCountPad c.width W sx - 1) * sx ≠ c.width) ∨
          (H + (tilesCountPad c.height H sy - 1) * sy ≠ c.height) then
    (pad c 0 (((W + (tilesCountPad c.width W sx - 1) * sx : Nat) : Int) - (c.width : Int))
          0 (((H + (tilesCountPad c.height H sy - 1) * sy : Nat) : Int) - (c.height : Int))
          padding ext).map
      (fun padded =>
        { padded with padProps := c.padProps, tileProps := c.tileProps,
                      windowProps := c.windowProps, tpadProps := c.tpadProps })
  else .ok c

/-- The row-major grid of `CropAbs` windows of `tile`. -/
def tileGrid (prep : SClip) (W H sx sy tx ty : Nat) : List SClip :=
  (List.range ty).flatMap (fun j =>
    (List.range tx).map (fun i =>
      cropAbs prep W H ((i * sx : Nat) : Int) ((j * sy : Nat) : Int)))

/-- Tile count along x for the chosen padding branch. -/
def tileCountX (c : SClip) (W sx : Nat) (padding : PadArg) : Nat :=
  if padding = .str "discard" then tilesCountDiscard c.width W sx
  else tilesCountPad c.width W sx

/-- Tile count along y for the chosen padding branch. -/
def tileCountY (c : SClip) (H sy : Nat) (padding : PadArg) : Nat :=
  if padding = .str "discard" then tilesCountDiscard c.height H sy
  else tilesCountPad c.height H sy

/-- `tile(clip, width, height, overlap, padding)`. -/
def tile (c : SClip) (width height : Int) (overlap : OvArg) (padding : PadArg)
    (ext : ExtFill) : Except Err SClip :=
  if c.width = 0 ∨ c.height = 0 then .error .invalidInput
  else if width ≤ 1 ∨ height ≤ 1 then .error .invalidInput
  else if ovW overlap < 0 ∨ ovH overlap < 0 then .error .negativeValue
  else if width ≤ ovW overlap ∨ height ≤ ovH overlap then .error .invalidOverlap
  else if ¬ (check_modulus width c.fmt.subW ∧ check_modulus height c.fmt.subH ∧
             check_modulus (ovW overlap) c.fmt.subW ∧
             check_modulus (ovH overlap) c.fmt.subH) then .error .unalignedValue
  else
    (tilePrep c width.toNat height.toNat
        (width.toNat - (ovW overlap).toNat) (height.toNat - (ovH overlap).toNat)
        padding ext).map
      (fun prep =>
        { fmt := c.fmt,
          width := width.toNat,
          height := height.toNat,
          frames := interleave ((tileGrid prep width.toNat height.toNat
            (width.toNat - (ovW overlap).toNat) (height.toNat - (ovH overlap).toNat)
            (tileCountX c width.toNat (width.toNat - (ovW overlap).toNat) padding)
            (tileCountY c height.toNat (height.toNat - (ovH overlap).toNat) padding)).map
              SClip.frames),
          padProps := prep.padProps,
          tileProps := some ⟨width, height, ovW overlap, ovH overlap,
            (c.width : Int), (c.height : Int), decide (padding = .str "discard")⟩,
          windowProps := prep.windowProps,
          tpadProps := prep.tpadProps })

lemma interleaveN_maps (fs : List (Pix → Pix)) (base : List Pix) :
    interleaveN (fs.map (fun f => base.map f)) base.length
      = base.flatMap (fun p => fs.map (fun f => f p)) := by
  induction base with
  | nil => simp [interleaveN]
  | cons a tl ih =>
      have hstep : interleaveN (fs.map (fun f => (a :: tl).map f)) (tl.length + 1)
          = (fs.map (fun f => (a :: tl).map f)).filterMap List.head?
            ++ interleaveN ((fs.map (fun f => (a :: tl).map f)).map List.tail)
                 tl.length := rfl
      have hheads : (fs.map (fun f => (a :: tl).map f)).filterMap List.head?
          = fs.map (fun f => f a) := by
        rw [List.filterMap_map]
        have h' : (List.head? ∘ fun f => (a :: tl).map f)
            = some ∘ (fun f : Pix → Pix => f a) := by
          funext f
          rfl
        rw [h', List.filterMap_eq_map]
      have htails : (fs.map (fun f => (a :: tl).map f)).map List.tail
          = fs.map (fun f => tl.map f) := by
        rw [List.map_map]
        rfl
      show interleaveN (fs.map (fun f => (a :: tl).map f)) (tl.length + 1) = _
      rw [hstep, hheads, htails, ih, List.flatMap_cons]

lemma interleave_maps (fs : List (Pix → Pix)) (base : List Pix) (hfs : fs ≠ []) :
    interleave (fs.map (fun f => base.map f))
      = base.flatMap (fun p => fs.map (fun f => f p)) := by
  cases fs with
  | nil => exact absurd rfl hfs
  | cons f0 ft =>
      have h0 : interleave ((f0 :: ft).map (fun f => base.map f))
          = interleaveN ((f0 :: ft).map (fun f => base.map f))
              (base.map f0).length := rfl
      rw [h0, List.length_map]
      exact interleaveN_maps (f0 :: ft) base

lemma selectEveryGo_flatMap (g : Pix → List Pix) (k i : Nat)
    (hg : ∀ p, (g p).length = k) (hi : i < k) (base : List Pix) :
    ∀ fuel : Nat, base.length ≤ fuel →
    selectEveryGo k i fuel (base.flatMap g)
      = base.map (fun p => (g p).getD i pix0) := by
  induction base with
  | nil =>
      intro fuel _
      cases fuel with
      | zero => rfl
      | succ m => simp [selectEveryGo]
  | cons a tl ih =>
      intro fuel hfuel
      cases fuel with
      | zero => simp at hfuel
      | succ m =>
          rw [List.flatMap_cons]
          have hlen : i < (g a ++ tl.flatMap g).length := by
            rw [List.length_append, hg a]
            omega
          have hstep : selectEveryGo k i (m + 1) (g a ++ tl.flatMap g)
              = if i < (g a ++ tl.flatMap g).length then
                  (g a ++ tl.flatMap g).getD i pix0
                    :: selectEveryGo k i m ((g a ++ tl.flatMap g).drop k)
                else [] := rfl
          rw [hstep, if_pos hlen]
          have hhead : (g a ++ tl.flatMap g).getD i pix0 = (g a).getD i pix0 :=
            List.getD_append _ _ _ i (by rw [hg a]; exact hi)
          have hdrop : (g a ++ tl.flatMap g).drop k = tl.flatMap g := by
            rw [← hg a]
            exact List.drop_left _ _
          rw [hhead, hdrop, ih m (by simpa using Nat.succ_le_succ_iff.mp hfuel)]
          rfl

lemma selectEvery_flatMap (g : Pix → List Pix) (k i : Nat)
    (hg : ∀ p, (g p).length = k) (hi : i < k) (base : List Pix) :
    selectEvery (base.flatMap g) k i = base.map (fun p => (g p).getD i pix0) := by
  have hk : 0 < k := by omega
  have hlen : base.length ≤ (base.flatMap g).length := by
    induction base with
    | nil => simp
    | cons a tl ih =>
        rw [List.flatMap_cons, List.length_append, hg a]
        simp only [List.length_cons]
        omega
  exact selectEveryGo_flatMap g k i hg hi base _ hlen

lemma getD_map_apply (fs : List (Pix → Pix)) (p : Pix) (i : Nat)
    (h : i < fs.length) :
    ((fs.map (fun f => f p)).getD i pix0) = (fs.getD i (fun _ => pix0)) p := by
  rw [List.getD_eq_getElem?_getD, List.getD_eq_getElem?_getD, List.getElem?_map]
  cases hx : fs[i]? with
  | none =>
      rw [List.getElem?_eq_none_iff] at hx
      omega
  | some f => rfl

lemma getD_map_range {β : Type} (g : Nat → β) (tx col : Nat) (h : col < tx) (d : β) :
    ((List.range tx).map g).getD col d = g col := by
  rw [List.getD_eq_getElem?_getD, List.getElem?_map, List.getElem?_range h]
  rfl

lemma length_flat_grid {β : Type} (F : Nat → Nat → β) (tx : Nat) :
    ∀ m, (((List.range m).flatMap (fun j =>
        (List.range tx).map (fun i => F i j)))).length = m * tx := by
  intro m
  induction m with
  | zero => simp
  | succ m ih =>
      rw [List.range_succ, List.flatMap_append, List.length_append, ih]
      simp [Nat.succ_mul]

lemma grid_flat_getD {β : Type} (F : Nat → Nat → β) (tx : Nat) (d : β) :
    ∀ (m row col : Nat), col < tx → row < m →
    (((List.range m).flatMap (fun j =>
        (List.range tx).map (fun i => F i j)))).getD (row * tx + col) d
      = F col row := by
  intro m
  induction m with
  | zero => intro row col _ hr; exact absurd hr (Nat.not_lt_zero row)
  | succ m ih =>
      intro row col hc hr
      rw [List.range_succ, List.flatMap_append]
      by_cases hrow : row < m
      · rw [List.getD_append _ _ _ _ (by
          rw [length_flat_grid]
          calc row * tx + col < row * tx + tx := by omega
            _ = (row + 1) * tx := by ring
            _ ≤ m * tx := Nat.mul_le_mul_right tx hrow)]
        exact ih row col hc hrow
      · have hrm : row = m := by omega
        subst hrm
        rw [List.getD_append_right _ _ _ _ (by rw [length_flat_grid]; omega)]
        rw [length_flat_grid]
        have hsub : row * tx + col - row * tx = col := by omega
        rw [hsub]
        simp only [List.flatMap_cons, List.flatMap_nil, List.append_nil]
        exact getD_map_range _ tx col hc d

lemma le_pad_assembled (total size stride : Nat) (hst : 0 < stride) :
    total ≤ size + (tilesCountPad total size stride - 1) * stride := by
  unfold tilesCountPad
  by_cases h : total ≤ size
  · rw [if_pos h]
    simpa using h
  · rw [if_neg h]
    have h1 : ∀ q : Nat, 1 + q - 1 = q := fun q => by omega
    rw [h1]
    have hd := Nat.div_add_mod (total - size + stride - 1) stride
    have hm : (total - size + stride - 1) % stride < stride := Nat.mod_lt _ hst
    have hcomm : (total - size + stride - 1) / stride * stride
        = stride * ((total - size + stride - 1) / stride) := Nat.mul_comm _ _
    omega

lemma check_modulus_dvd {v s : Int} (hs : 0 < s) (h : check_modulus v s) : s ∣ v := by
  by_cases h1 : 1 < s
  · exact Int.dvd_of_emod_eq_zero (h h1)
  · have hs1 : s = 1 := by omega
    subst hs1
    exact one_dvd v

lemma Fmt.subW_pos (f : Fmt) : 0 < f.subW := by
  unfold Fmt.subW
  positivity

lemma Fmt.subH_pos (f : Fmt) : 0 < f.subH := by
  unfold Fmt.subH
  positivity

lemma length_flatMap_const (g : Pix → List Pix) (k : Nat)
    (hg : ∀ p, (g p).length = k) (base : List Pix) :
    (base.flatMap g).length = base.length * k := by
  induction base with
  | nil => simp
  | cons a tl ih =>
      rw [List.flatMap_cons, List.length_append, hg a, ih, List.length_cons]
      ring

lemma grid_index_lt (tx ty row col : Nat) (hc : col < tx) (hr : row < ty) :
    row * tx + col < tx * ty := by
  have h1 : (row + 1) * tx = row * tx + tx := by ring
  have h2 : (row + 1) * tx ≤ ty * tx := mul_le_mul_right' (by omega) tx
  have h3 : tx * ty = ty * tx := Nat.mul_comm tx ty
  omega

/-- Claim C3: `tile` produces exactly `tiles_x * tiles_y` output frames per
input frame (so that count equals output length divided by input length),
packed row-major with tile index `row * tiles_x + col` cycling per original
frame, and de-interleaving by that cycle recovers, at offset
`row * tiles_x + col`, the tile at grid position `(col, row)` of the prepared
(cropped or padded) clip. -/
theorem tile_grid_packing (c : SClip) (width height : Int) (overlap : OvArg)
    (padding : PadArg) (ext : ExtFill) (W H sx sy tx ty : Nat)
    (hWd : W = width.toNat) (hHd : H = height.toNat)
    (hsxd : sx = W - (ovW overlap).toNat) (hsyd : sy = H - (ovH overlap).toNat)
    (htxd : tx = tileCountX c W sx padding) (htyd : ty = tileCountY c H sy padding)
    (hfr : 0 < c.frames.length)
    (hcw : 0 < c.width) (hch : 0 < c.height)
    (hw1 : 1 < width) (hh1 : 1 < height)
    (how0 : 0 ≤ ovW overlap) (hoh0 : 0 ≤ ovH overlap)
    (howl : ovW overlap < width) (hohl : ovH overlap < height)
    (hmodW : check_modulus width c.fmt.subW) (hmodH : check_modulus height c.fmt.subH)
    (hmodOW : check_modulus (ovW overlap) c.fmt.subW)
    (hmodOH : check_modulus (ovH overlap) c.fmt.subH)
    (hdW : c.fmt.subW ∣ (c.width : Int)) (hdH : c.fmt.subH ∣ (c.height : Int))
    (hdisc : padding = .str "discard" → W ≤ c.width ∧ H ≤ c.height)
    (hmode : padding ≠ .str "discard" →
      tileModeOk padding = true ∧ padModeOk padding c.fmt = true)
    (hmax : tx * ty ≤ max_tiles) :
    ∃ prep, tilePrep c W H sx sy padding ext = .ok prep ∧
      prep.frames.length = c.frames.length ∧
      ∃ T, tile c width height overlap padding ext = .ok T ∧
        T.frames.length = c.frames.length * (tx * ty) ∧
        tx * ty = T.frames.length / c.frames.length ∧
        ∀ col row, col < tx → row < ty →
          selectEvery T.frames (tx * ty) (row * tx + col)
            = (cropAbs prep W H ((col * sx : Nat) : Int)
                ((row * sy : Nat) : Int)).frames := by
  have hsxpos : 0 < sx := by omega
  have hsypos : 0 < sy := by omega
  have hm1024 : max_tiles = 1024 := rfl
  obtain ⟨prep, hprep, hpfr⟩ :
      ∃ prep, tilePrep c W H sx sy padding ext = .ok prep ∧
        prep.frames.length = c.frames.length := by
    by_cases hd : padding = .str "discard"
    · have hfit := hdisc hd
      have htx' : tx = tilesCountDiscard c.width W sx := by
        rw [htxd, tileCountX, if_pos hd]
      have hty' : ty = tilesCountDiscard c.height H sy := by
        rw [htyd, tileCountY, if_pos hd]
      have hstep : tilePrep c W H sx sy padding ext
          = .ok (cropRB c
              (c.width - (W + (tilesCountDiscard c.width W sx - 1) * sx))
              (c.height - (H + (tilesCountDiscard c.height H sy - 1) * sy))) := by
        rw [tilePrep, if_pos hd, if_neg (by omega),
          if_neg (by rw [← htx', ← hty']; omega)]
      exact ⟨_, hstep, rfl⟩
    · have hmo := hmode hd
      have htx' : tx = tilesCountPad c.width W sx := by
        rw [htxd, tileCountX, if_neg hd]
      have hty' : ty = tilesCountPad c.height H sy := by
        rw [htyd, tileCountY, if_neg hd]
      have hmaxg : ¬ (max_tiles <
          tilesCountPad c.width W sx * tilesCountPad c.height H sy) := by
        rw [← htx', ← hty']
        omega
      by_cases hneed : (W + (tilesCountPad c.width W sx - 1) * sx ≠ c.width) ∨
          (H + (tilesCountPad c.height H sy - 1) * sy ≠ c.height)
      · have hWI : (W : Int) = width := by omega
        have hHI : (H : Int) = height := by omega
        have hdvwidth : c.fmt.subW ∣ width :=
          check_modulus_dvd c.fmt.subW_pos hmodW
        have hdvheight : c.fmt.subH ∣ height :=
          check_modulus_dvd c.fmt.subH_pos hmodH
        have hdvow : c.fmt.subW ∣ ovW overlap :=
          check_modulus_dvd c.fmt.subW_pos hmodOW
        have hdvoh : c.fmt.subH ∣ ovH overlap :=
          check_modulus_dvd c.fmt.subH_pos hmodOH
        have hsxI : (sx : Int) = width - ovW overlap := by omega
        have hsyI : (sy : Int) = height - ovH overlap := by omega
        have hdvsx : c.fmt.subW ∣ (sx : Int) := by
          rw [hsxI]; exact dvd_sub hdvwidth hdvow
        have hdvsy : c.fmt.subH ∣ (sy : Int) := by
          rw [hsyI]; exact dvd_sub hdvheight hdvoh
        have hpr0 : (0 : Int) ≤
            ((W + (tilesCountPad c.width W sx - 1) * sx : Nat) : Int) - (c.width : Int) := by
          have := le_pad_assembled c.width W sx hsxpos
          omega
        have hpb0 : (0 : Int) ≤
            ((H + (tilesCountPad c.height H sy - 1) * sy : Nat) : Int) - (c.height : Int) := by
          have := le_pad_assembled c.height H sy hsypos
          omega
        have hdvpr : c.fmt.subW ∣
            (((W + (tilesCountPad c.width W sx - 1) * sx : Nat) : Int) - (c.width : Int)) := by
          have hcast : ((W + (tilesCountPad c.width W sx - 1) * sx : Nat) : Int)
              = (W : Int) + ((tilesCountPad c.width W sx - 1 : Nat) : Int) * (sx : Int) := by
            push_cast
            ring
          rw [hcast]
          exact dvd_sub (dvd_add (by rw [hWI]; exact hdvwidth)
            (Dvd.dvd.mul_left hdvsx _)) hdW
        have hdvpb : c.fmt.subH ∣
            (((H + (tilesCountPad c.height H sy - 1) * sy : Nat) : Int) - (c.height : Int)) := by
          have hcast : ((H + (tilesCountPad c.height H sy - 1) * sy : Nat) : Int)
              = (H : Int) + ((tilesCountPad c.height H sy - 1 : Nat) : Int) * (sy : Int) := by
            push_cast
            ring
          rw [hcast]
          exact dvd_sub (dvd_add (by rw [hHI]; exact hdvheight)
            (Dvd.dvd.mul_left hdvsy _)) hdH
        have hnz : ¬ ((0 : Int) = 0 ∧
            ((W + (tilesCountPad c.width W sx - 1) * sx : Nat) : Int) - (c.width : Int) = 0 ∧
            (0 : Int) = 0 ∧
            ((H + (tilesCountPad c.height H sy - 1) * sy : Nat) : Int) - (c.height : Int) = 0) := by
          rcases hneed with h | h <;> intro hcontra <;> omega
        obtain ⟨G, hG, hpad⟩ := pad_pos_spec c 0
          (((W + (tilesCountPad c.width W sx - 1) * sx : Nat) : Int) - (c.width : Int)) 0
          (((H + (tilesCountPad c.height H sy - 1) * sy : Nat) : Int) - (c.height : Int))
          padding ext hcw hch le_rfl hpr0 le_rfl hpb0
          (dvd_zero _) hdvpr (dvd_zero _) hdvpb hmo.2 hnz
        have hstep : tilePrep c W H sx sy padding ext
            = .ok { fmt := c.fmt,
                    width := c.width +
                      ((0 : Int) + (((W + (tilesCountPad c.width W sx - 1) * sx : Nat) : Int)
                        - (c.width : Int))).toNat,
                    height := c.height +
                      ((0 : Int) + (((H + (tilesCountPad c.height H sy - 1) * sy : Nat) : Int)
                        - (c.height : Int))).toNat,
                    frames := c.frames.map G,
                    padProps := c.padProps, tileProps := c.tileProps,
                    windowProps := c.windowProps, tpadProps := c.tpadProps } := by
          rw [tilePrep, if_neg hd, if_neg (not_not_intro hmo.1), if_neg hmaxg,
            if_pos hneed, hpad]
          rfl
        exact ⟨_, hstep, by simp⟩
      · push_neg at hneed
        refine ⟨c, ?_, rfl⟩
        rw [tilePrep, if_neg hd, if_neg (not_not_intro hmo.1), if_neg hmaxg,
          if_neg (by rintro (h | h); exacts [h hneed.1, h hneed.2])]
  have hop : ¬ (c.width = 0 ∨ c.height = 0) := by omega
  have hsz : ¬ (width ≤ 1 ∨ height ≤ 1) := by omega
  have hon : ¬ (ovW overlap < 0 ∨ ovH overlap < 0) := by omega
  have hol : ¬ (width ≤ ovW overlap ∨ height ≤ ovH overlap) := by omega
  have hmods : ¬¬ (check_modulus width c.fmt.subW ∧ check_modulus height c.fmt.subH ∧
      check_modulus (ovW overlap) c.fmt.subW ∧ check_modulus (ovH overlap) c.fmt.subH) :=
    not_not_intro ⟨hmodW, hmodH, hmodOW, hmodOH⟩
  have htx1 : 1 ≤ tx := by
    rw [htxd, tileCountX]
    by_cases hd : padding = .str "discard" <;>
      simp [hd, tilesCountDiscard, tilesCountPad]
  have hty1 : 1 ≤ ty := by
    rw [htyd, tileCountY]
    by_cases hd : padding = .str "discard" <;>
      simp [hd, tilesCountDiscard, tilesCountPad]
  refine ⟨prep, hprep, hpfr, ?_⟩
  have htile : tile c width height overlap padding ext
      = .ok { fmt := c.fmt,
              width := W,
              height := H,
              frames := interleave ((tileGrid prep W H sx sy tx ty).map SClip.frames),
              padProps := prep.padProps,
              tileProps := some ⟨width, height, ovW overlap, ovH overlap,
                (c.width : Int), (c.height : Int), decide (padding = .str "discard")⟩,
              windowProps := prep.windowProps,
              tpadProps := prep.tpadProps } := by
    rw [tile, if_neg hop, if_neg hsz, if_neg hon, if_neg hol, if_neg hmods,
      ← hWd, ← hHd, ← hsxd, ← hsyd, ← htxd, ← htyd, hprep]
    rfl
  have hgridmap : (tileGrid prep W H sx sy tx ty).map SClip.frames
      = ((List.range ty).flatMap (fun j => (List.range tx).map (fun i =>
          (fun p : Pix => fun x y =>
            p (x + ((i * sx : Nat) : Int)) (y + ((j * sy : Nat) : Int)))))).map
          (fun f => prep.frames.map f) := by
    simp only [tileGrid, cropAbs, List.map_flatMap, List.map_map]
    rfl
  have hfns_len : ((List.range ty).flatMap (fun j => (List.range tx).map (fun i =>
      (fun p : Pix => fun x y =>
        p (x + ((i * sx : Nat) : Int)) (y + ((j * sy : Nat) : Int)))))).length
      = ty * tx := length_flat_grid _ tx ty
  have hfns_ne : ((List.range ty).flatMap (fun j => (List.range tx).map (fun i =>
      (fun p : Pix => fun x y =>
        p (x + ((i * sx : Nat) : Int)) (y + ((j * sy : Nat) : Int)))))) ≠ [] := by
    apply List.ne_nil_of_length_pos
    rw [hfns_len]
    positivity
  have hTframes : interleave ((tileGrid prep W H sx sy tx ty).map SClip.frames)
      = prep.frames.flatMap (fun p =>
          ((List.range ty).flatMap (fun j => (List.range tx).map (fun i =>
            (fun q : Pix => fun x y =>
              q (x + ((i * sx : Nat) : Int)) (y + ((j * sy : Nat) : Int)))))).map
            (fun f => f p)) := by
    rw [hgridmap]
    exact interleave_maps _ prep.frames hfns_ne
  have hglen : ∀ p : Pix,
      (((List.range ty).flatMap (fun j => (List.range tx).map (fun i =>
        (fun q : Pix => fun x y =>
          q (x + ((i * sx : Nat) : Int)) (y + ((j * sy : Nat) : Int)))))).map
        (fun f => f p)).length = tx * ty := by
    intro p
    rw [List.length_map, hfns_len, Nat.mul_comm]
  have hlenT : (interleave ((tileGrid prep W H sx sy tx ty).map SClip.frames)).length
      = c.frames.length * (tx * ty) := by
    rw [hTframes, length_flatMap_const _ _ hglen, hpfr]
  refine ⟨_, htile, by simpa using hlenT, ?_, ?_⟩
  · simp only
    rw [hlenT, Nat.mul_comm c.frames.length (tx * ty), Nat.mul_div_cancel _ hfr]
  · intro col row hcol hrow
    have hik : row * tx + col < tx * ty := grid_index_lt tx ty row col hcol hrow
    have hik2 : row * tx + col < ty * tx := by
      rw [Nat.mul_comm ty tx]
      exact hik
    simp only
    rw [hTframes, selectEvery_flatMap _ _ _ hglen hik]
    have hinner : ∀ p ∈ prep.frames,
        ((((List.range ty).flatMap (fun j => (List.range tx).map (fun i =>
          (fun q : Pix => fun x y =>
            q (x + ((i * sx : Nat) : Int)) (y + ((j * sy : Nat) : Int)))))).map
          (fun f => f p)).getD (row * tx + col) pix0)
        = (fun x y => p (x + ((col * sx : Nat) : Int)) (y + ((row * sy : Nat) : Int))) := by
      intro p _
      exact ((getD_map_apply _ p (row * tx + col) (by rw [hfns_len]; exact hik2)).trans
        (congrArg (fun f => f p)
          (grid_flat_getD (fun i j => (fun q : Pix => fun x y =>
            q (x + ((i * sx : Nat) : Int)) (y + ((j * sy : Nat) : Int)))) tx
            (fun _ => pix0) ty row col hcol hrow)))
    rw [List.map_congr_left hinner]
    rfl

/-- Concrete 4×4 clip used by witnesses. -/
def clipB : SClip := { fmt := fmt0, width := 4, height := 4, frames := [pix0] }

/-- Witness for C3: a 4×4 clip tiled into a 2×2 grid of 2×2 tiles with no
overlap and `"black"` padding. -/
theorem tile_grid_packing_witness :
    ((2 : Nat) = (2 : Int).toNat ∧ (2 : Nat) = 2 - (ovW (.one 0)).toNat ∧
     (2 : Nat) = tileCountX clipB 2 2 (.str "black") ∧ 0 < clipB.frames.length ∧
     (2 : Nat) * 2 ≤ max_tiles) ∧
    (∃ prep, tilePrep clipB 2 2 2 2 (.str "black") extFill0 = .ok prep ∧
      prep.frames.length = clipB.frames.length ∧
      ∃ T, tile clipB 2 2 (.one 0) (.str "black") extFill0 = .ok T ∧
        T.frames.length = clipB.frames.length * (2 * 2) ∧
        2 * 2 = T.frames.length / clipB.frames.length ∧
        ∀ col row, col < 2 → row < 2 →
          selectEvery T.frames (2 * 2) (row * 2 + col)
            = (cropAbs prep 2 2 ((col * 2 : Nat) : Int)
                ((row * 2 : Nat) : Int)).frames) :=
  ⟨⟨by decide, by decide, by decide, by decide, by decide⟩,
   tile_grid_packing clipB 2 2 (.one 0) (.str "black") extFill0 2 2 2 2 2 2
     (by decide) (by decide) (by decide) (by decide) (by decide) (by decide)
     (by decide) (by decide) (by decide) (by decide) (by decide) (by decide)
     (by decide) (by decide) (by decide) (by decide) (by decide) (by decide)
     (by decide) (by decide) (by decide) (by decide) (by decide) (by decide)⟩

/-- `_maskedmerge`: per-pixel blend `x*(1-z) + y*z` (the Expr in the float16
branch; the MaskedMerge plugin computes the same first-plane blend). -/
def maskedMergePix (a b m : Pix) : Pix :=
  fun x y => a x y * (1 - m x y) + b x y * m x y

/-- `std.StackHorizontal` of two clips. -/
def stackH (a b : SClip) : SClip :=
  { a with width := a.width + b.width,
           frames := List.zipWith (fun pa pb => fun x y =>
             if x < (a.width : Int) then pa x y else pb (x - a.width) y)
             a.frames b.frames }

/-- `std.StackVertical` of two clips. -/
def stackV (a b : SClip) : SClip :=
  { a with height := a.height + b.height,
           frames := List.zipWith (fun pa pb => fun x y =>
             if y < (a.height : Int) then pa x y else pb x (y - a.height))
             a.frames b.frames }

/-- `std.StackHorizontal` of a non-empty list (`d` is unreachable filler). -/
def stackHAll (l : List SClip) (d : SClip) : SClip :=
  match l with
  | [] => d
  | a :: rest => rest.foldl stackH a

/-- `std.StackVertical` of a non-empty list (`d` is unreachable filler). -/
def stackVAll (l : List SClip) (d : SClip) : SClip :=
  match l with
  | [] => d
  | a :: rest => rest.foldl stackV a

/-- `std.Crop(clip, left, right, top, bottom)`. -/
def stdCrop (c : SClip) (l r t b : Nat) : SClip :=
  { c with width := c.width - (l + r), height := c.height - (t + b),
           frames := c.frames.map (fun p => fun x y =>
             p (x + (l : Int)) (y + (t : Int))) }

/-- Blend of two equal-size clips through one constant mask plane. -/
def mergeClips (a b : SClip) (mask : Pix) : SClip :=
  { a with frames := List.zipWith (fun pa pb => maskedMergePix pa pb mask)
             a.frames b.frames }

/-- `_fade_horizontal` of `untile`; `gradH w h` is the external bilinear
resample of the two-sample gradient to a `w × h` mask. -/
def fadeH (gradH : Nat → Nat → Pix) (ow : Nat) (left right : SClip) : SClip :=
  if ow = 0 then stackH left right
  else
    stackH
      (stackH (stdCrop left 0 ow 0 0)
        (mergeClips (stdCrop left (left.width - ow) 0 0 0)
          (stdCrop right 0 (right.width - ow) 0 0)
          (gradH ow left.height)))
      (stdCrop right ow 0 0 0)

/-- `_fade_vertical` of `untile`. -/
def fadeV (gradV : Nat → Nat → Pix) (oh : Nat) (top bottom : SClip) : SClip :=
  if oh = 0 then stackV top bottom
  else
    stackV
      (stackV (stdCrop top 0 0 0 oh)
        (mergeClips (stdCrop top 0 0 (top.height - oh) 0)
          (stdCrop bottom 0 0 0 (bottom.height - oh))
          (gradV top.width oh)))
      (stdCrop bottom 0 0 oh 0)

/-- `_crop_tiles`: trim the half-overlap from every side shared with a
neighbour. -/
def crop_tiles (t : SClip) (ow oh sub_w sub_h : Int) (tiles_x tiles_y col row : Nat) :
    SClip :=
  stdCrop t
    (if 0 < col then (split_overlap ow sub_w).1.toNat else 0)
    (if col < tiles_x - 1 then (split_overlap ow sub_w).2.toNat else 0)
    (if 0 < row then (split_overlap oh sub_h).1.toNat else 0)
    (if row < tiles_y - 1 then (split_overlap oh sub_h).2.toNat else 0)

/-- Derived reassembly geometry of `untile`. -/
structure UntileGeom where
  overlap_width  : Int
  overlap_height : Int
  tiles_x : Int
  tiles_y : Int
  pad_r : Int
  pad_b : Int
  deriving DecidableEq, Repr

/-- `tiles = 1 + (0 if total <= size else ceil((total - size)/stride))` on
Python integers. -/
def tilesCountPadI (total size stride : Int) : Int :=
  1 + (if total ≤ size then 0 else (total - size + stride - 1) / stride)

/-- Manual-mode geometry derivation of `untile`. -/
def untileGeomManual (c : SClip) (fw fh : Int) (ov : OvArg) : Except Err UntileGeom :=
  if ovW ov < 0 ∨ ovH ov < 0 then .error .negativeValue
  else if (c.width : Int) ≤ ovW ov ∨ (c.height : Int) ≤ ovH ov then .error .invalidOverlap
  else if ¬ (check_modulus (ovW ov) c.fmt.subW ∧ check_modulus (ovH ov) c.fmt.subH ∧
             check_modulus fw c.fmt.subW ∧ check_modulus fh c.fmt.subH) then
    .error .unalignedValue
  else if (c.width : Int) - ovW ov ≤ 0 ∨ (c.height : Int) - ovH ov ≤ 0 then
    .error .invalidOverlap
  else
    .ok ⟨ovW ov, ovH ov,
      tilesCountPadI fw c.width ((c.width : Int) - ovW ov),
      tilesCountPadI fh c.height ((c.height : Int) - ovH ov),
      max 0 (((c.width : Int) + (tilesCountPadI fw c.width ((c.width : Int) - ovW ov) - 1)
        * ((c.width : Int) - ovW ov)) - fw),
      max 0 (((c.height : Int) + (tilesCountPadI fh c.height ((c.height : Int) - ovH ov) - 1)
        * ((c.height : Int) - ovH ov)) - fh)⟩

/-- Rescale a stored value to the current tile extent with Python `round`. -/
def untileRescale (v : Int) (cur : Nat) (orig : Int) : Int :=
  roundHalfEven ((v : ℚ) * ((cur : ℚ) / (orig : ℚ)))

/-- Floor a value down to a multiple of the subsampling factor (applied only
when the factor exceeds 1). -/
def alignDown (v sub : Int) : Int :=
  if 1 < sub then v - v % sub else v

/-- Auto-mode geometry derivation of `untile` from the Tile Record, with
rescale, alignment and overlap clamping. -/
def untileGeomAuto (c : SClip) : Except Err UntileGeom :=
  match c.tileProps with
  | none => .error .missingMetadata
  | some tp =>
      (fun ow oh fw fh =>
        (fun ow2 oh2 =>
          if tp.discard then
            if fw < (c.width : Int) ∨ fh < (c.height : Int) then
              .error .invalidInput
            else
              .ok ⟨ow2, oh2,
                1 + (fw - (c.width : Int)) / ((c.width : Int) - ow2),
                1 + (fh - (c.height : Int)) / ((c.height : Int) - oh2),
                0, 0⟩
          else
            .ok ⟨ow2, oh2,
              tilesCountPadI fw c.width ((c.width : Int) - ow2),
              tilesCountPadI fh c.height ((c.height : Int) - oh2),
              max 0 (((c.width : Int) + (tilesCountPadI fw c.width ((c.width : Int) - ow2) - 1)
                * ((c.width : Int) - ow2)) - fw),
              max 0 (((c.height : Int) + (tilesCountPadI fh c.height ((c.height : Int) - oh2) - 1)
                * ((c.height : Int) - oh2)) - fh)⟩)
        (max 0 (min (alignDown ow c.fmt.subW) ((c.width : Int) - 1)))
        (max 0 (min (alignDown oh c.fmt.subH) ((c.height : Int) - 1))))
      (untileRescale tp.overlap_w c.width tp.tile_w)
      (untileRescale tp.overlap_h c.height tp.tile_h)
      (alignDown (untileRescale tp.orig_w c.width tp.tile_w) c.fmt.subW)
      (alignDown (untileRescale tp.orig_h c.height tp.tile_h) c.fmt.subH)

/-- Deinterleave, per-tile cropping or fading, stacking and final crop of
`untile`, guarded by the `max_tiles` and divisibility checks. -/
def untileAssemble (c : SClip) (fade : Bool) (g : UntileGeom)
    (gradH gradV : Nat → Nat → Pix) : Except Err SClip :=
  if (max_tiles : Int) < g.tiles_x * g.tiles_y then .error .tooManyChunks
  else if c.frames.length ≠ 0 ∧
      (c.frames.length : Int) % (g.tiles_x * g.tiles_y) ≠ 0 then
    .error .chunkCountMismatch
  else
    (fun parts =>
      (fun full =>
        (fun cropped => .ok { cropped with tileProps := none })
        (if g.pad_r ≠ 0 ∨ g.pad_b ≠ 0 then
          stdCrop full 0 g.pad_r.toNat 0 g.pad_b.toNat
        else full))
      (if ¬ fade then
        stackVAll ((List.range g.tiles_y.toNat).map (fun j =>
          stackHAll ((List.range g.tiles_x.toNat).map (fun i =>
            crop_tiles (parts.getD (j * g.tiles_x.toNat + i) c)
              g.overlap_width g.overlap_height c.fmt.subW c.fmt.subH
              g.tiles_x.toNat g.tiles_y.toNat i j)) c)) c
      else
        (fun rows =>
          (List.range (g.tiles_y.toNat - 1)).foldl
            (fun acc j => fadeV gradV g.overlap_height.toNat acc (rows.getD (j + 1) c))
            (rows.getD 0 c))
        ((List.range g.tiles_y.toNat).map (fun j =>
          (List.range (g.tiles_x.toNat - 1)).foldl
            (fun acc i => fadeH gradH g.overlap_width.toNat acc
              (parts.getD (j * g.tiles_x.toNat + i + 1) c))
            (parts.getD (j * g.tiles_x.toNat) c)))))
    (if g.tiles_x * g.tiles_y = 1 then [c]
     else (List.range (g.tiles_x * g.tiles_y).toNat).map (fun i =>
       { c with frames := selectEvery c.frames (g.tiles_x * g.tiles_y).toNat i }))

/-- `untile(clip, fade, full_width, full_height, overlap)`; `gradH`/`gradV`
are the gradient masks produced by the external bilinear resampler. -/
def untile (c : SClip) (fade : Bool) (full_width full_height : Option Int)
    (overlap : Option OvArg) (gradH gradV : Nat → Nat → Pix) : Except Err SClip :=
  if c.width = 0 ∨ c.height = 0 then .error .invalidInput
  else if (overlap.isSome || full_width.isSome || full_height.isSome) &&
      !(overlap.isSome && full_width.isSome && full_height.isSome) then
    .error .incompleteParameters
  else if overlap.isSome then
    (untileGeomManual c (full_width.getD 0) (full_height.getD 0)
        (overlap.getD (.one 0))).bind
      (fun g => untileAssemble c fade g gradH gradV)
  else
    (untileGeomAuto c).bind (fun g => untileAssemble c fade g gradH gradV)

/-- `clip * repeats`: concatenation of `k` copies. -/
def concatRepeat (l : List Pix) (k : Nat) : List Pix :=
  (List.replicate k l).flatten

/-- `_end_pad(clip, n)`: the `n` frames appended after the clip. -/
def endPad (fmt : Fmt) (frames : List Pix) (n : Nat) (mode : PadArg) :
    Except Err (List Pix) :=
  match mode with
  | .str s =>
      if s = "mirror" then
        if frames.length = 1 then .ok (List.replicate n (frames.headD pix0))
        else
          .ok ((concatRepeat (frames.dropLast.reverse ++ frames.drop 1)
            ((n + (frames.dropLast.reverse ++ frames.drop 1).length - 1)
              / max 1 (frames.dropLast.reverse ++ frames.drop 1).length)).take n)
      else if s = "loop" then
        if frames.length = 1 then .ok (List.replicate n (frames.headD pix0))
        else
          .ok ((concatRepeat frames
            ((n + frames.length - 1) / max 1 frames.length)).take n)
      else if s = "repeat" then
        .ok (List.replicate n (frames.getLastD pix0))
      else
        match normalize_color (.str s) fmt with
        | .error e => .error e
        | .ok .notColor => .error .invalidMode
        | .ok .default' => .ok (List.replicate n (constPix (addBordersColor .default')))
        | .ok (.vals vs) => .ok (List.replicate n (constPix (addBordersColor (.vals vs))))
  | .num v =>
      match normalize_color (.num v) fmt with
      | .error e => .error e
      | .ok .notColor => .error .invalidMode
      | .ok .default' => .ok (List.replicate n (constPix (addBordersColor .default')))
      | .ok (.vals vs) => .ok (List.replicate n (constPix (addBordersColor (.vals vs))))
  | .lst vs =>
      match normalize_color (.lst vs) fmt with
      | .error e => .error e
      | .ok .notColor => .error .invalidMode
      | .ok .default' => .ok (List.replicate n (constPix (addBordersColor .default')))
      | .ok (.vals ws) => .ok (List.replicate n (constPix (addBordersColor (.vals ws))))
  | .none' =>
      match normalize_color .none' fmt with
      | .error e => .error e
      | .ok .notColor => .error .invalidMode
      | .ok .default' => .ok (List.replicate n (constPix (addBordersColor .default')))
      | .ok (.vals vs) => .ok (List.replicate n (constPix (addBordersColor (.vals vs))))

/-- `_start_pad(clip, n)`: the `n` frames prepended before the clip. -/
def startPad (fmt : Fmt) (frames : List Pix) (n : Nat) (mode : PadArg) :
    Except Err (List Pix) :=
  match mode with
  | .str s =>
      if s = "mirror" then
        if frames.length = 1 then .ok (List.replicate n (frames.headD pix0))
        else
          .ok (((concatRepeat (frames.drop 1 ++ frames.dropLast.reverse)
            ((n + (frames.drop 1 ++ frames.dropLast.reverse).length - 1)
              / max 1 (frames.drop 1 ++ frames.dropLast.reverse).length)).take n).reverse)
      else if s = "loop" then
        if frames.length = 1 then .ok (List.replicate n (frames.headD pix0))
        else
          .ok ((fun looped => (looped.drop (looped.length - n)).take n)
            (concatRepeat frames ((n + frames.length - 1) / max 1 frames.length)))
      else if s = "repeat" then
        .ok (List.replicate n (frames.headD pix0))
      else
        match normalize_color (.str s) fmt with
        | .error e => .error e
        | .ok .notColor => .error .invalidMode
        | .ok .default' => .ok (List.replicate n (constPix (addBordersColor .default')))
        | .ok (.vals vs) => .ok (List.replicate n (constPix (addBordersColor (.vals vs))))
  | .num v =>
      match normalize_color (.num v) fmt with
      | .error e => .error e
      | .ok .notColor => .error .invalidMode
      | .ok .default' => .ok (List.replicate n (constPix (addBordersColor .default')))
      | .ok (.vals vs) => .ok (List.replicate n (constPix (addBordersColor (.vals vs))))
  | .lst vs =>
      match normalize_color (.lst vs) fmt with
      | .error e => .error e
      | .ok .notColor => .error .invalidMode
      | .ok .default' => .ok (List.replicate n (constPix (addBordersColor .default')))
      | .ok (.vals ws) => .ok (List.replicate n (constPix (addBordersColor (.vals ws))))
  | .none' =>
      match normalize_color .none' fmt with
      | .error e => .error e
      | .ok .notColor => .error .invalidMode
      | .ok .default' => .ok (List.replicate n (constPix (addBordersColor .default')))
      | .ok (.vals vs) => .ok (List.replicate n (constPix (addBordersColor (.vals vs))))

/-- `tpad` on the frame list: checks, pad-amount computation, and the
start/end pads around the original frames. -/
def tpadCore (fmt : Fmt) (frames : List Pix) (start end_ : Int)
    (length? : Option Int) (mode : PadArg) : Except Err (List Pix × TpadProps) :=
  if length?.isSome ∧ (start ≠ 0 ∨ end_ ≠ 0) then .error .invalidInput
  else if length?.getD 1 < 1 then .error .invalidInput
  else if start < 0 ∨ end_ < 0 then .error .negativeValue
  else
    (fun addStart addEnd =>
      (if 0 < addStart then startPad fmt frames addStart mode
       else .ok ([] : List Pix)).bind (fun head =>
      (if 0 < addEnd then endPad fmt frames addEnd mode
       else .ok ([] : List Pix)).bind (fun tail =>
      .ok (head ++ frames ++ tail, ⟨(addStart : Int), (addEnd : Int)⟩))))
    (match length? with | some _ => 0 | none => start.toNat)
    (match length? with
     | some L => (L - (frames.length : Int)).toNat
     | none => end_.toNat)

/-- `tpad(clip, start, end, length, mode)`. -/
def tpad (c : SClip) (start end_ : Int) (length? : Option Int) (mode : PadArg) :
    Except Err SClip :=
  if c.width = 0 ∨ c.height = 0 then .error .invalidInput
  else
    (tpadCore c.fmt c.frames start end_ length? mode).map
      (fun r => { c with frames := r.1, tpadProps := some r.2 })

/-- The padding tag written into the Window Record. -/
def windowTag : PadArg → String
  | .str s => s
  | .num _ => "none"
  | .lst _ => "color"
  | .none' => "none"

/-- The window-extraction loop of `window`, with explicit fuel (each
iteration consumes one unit; `window` supplies the clip length, which
bounds the iteration count since the stride is at least 1). -/
def windowLoop (fmt : Fmt) (seq : List Pix) (Ln stride : Nat) (padding : PadArg) :
    Nat → Nat → Except Err (List (List Pix))
  | 0, _ => .ok []
  | fuel + 1, start =>
      if start < seq.length then
        (fun w =>
          if w.length < Ln then
            match padding with
            | .str s =>
                if s = "discard" then .ok []
                else if s = "none" then
                  ((windowLoop fmt seq Ln stride padding fuel (start + stride)).map
                    (fun rest => w :: rest))
                else if s = "mirror" ∨ s = "loop" ∨ s = "repeat" ∨ s = "black" then
                  (tpadCore fmt w 0 0 (some (Ln : Int)) (.str s)).bind (fun r =>
                    (windowLoop fmt seq Ln stride padding fuel (start + stride)).map
                      (fun rest => r.1 :: rest))
                else .error .invalidMode
            | .none' =>
                ((windowLoop fmt seq Ln stride padding fuel (start + stride)).map
                  (fun rest => w :: rest))
            | .num v =>
                (tpadCore fmt w 0 0 (some (Ln : Int)) (.num v)).bind (fun r =>
                  (windowLoop fmt seq Ln stride padding fuel (start + stride)).map
                    (fun rest => r.1 :: rest))
            | .lst vs =>
                (tpadCore fmt w 0 0 (some (Ln : Int)) (.lst vs)).bind (fun r =>
                  (windowLoop fmt seq Ln stride padding fuel (start + stride)).map
                    (fun rest => r.1 :: rest))
          else
            ((windowLoop fmt seq Ln stride padding fuel (start + stride)).map
              (fun rest => w :: rest)))
        ((seq.drop start).take Ln)
      else .ok []

/-- `window(clip, length, overlap, padding)`. -/
def window (c : SClip) (length overlap : Int) (padding : PadArg) :
    Except Err SClip :=
  if c.width = 0 ∨ c.height = 0 then .error .invalidInput
  else if length < 1 then .error .invalidInput
  else if overlap < 0 ∨ length ≤ overlap then .error .invalidOverlap
  else
    (windowLoop c.fmt c.frames length.toNat (length.toNat - overlap.toNat) padding
        c.frames.length 0).map
      (fun ws =>
        { c with frames := ws.flatten,
                 windowProps := some ⟨(c.frames.length : Int), length, overlap,
                   windowTag padding⟩ })

/-- Pointwise ternary zip, used to blend a tail/head frame pair through the
per-frame mask weights. -/
def zipWith3 (f : Pix → Pix → ℚ → Pix) : List Pix → List Pix → List ℚ → List Pix
  | a :: as', b :: bs, w :: ws => f a b w :: zipWith3 f as' bs ws
  | _, _, _ => []

/-- Mask weight of blended frame `n` out of `length` (integer formats
quantize `peak * (n+1)/(length+1)` with Python `round`; floats use the exact
ratio). -/
def fadeWeight (fmt : Fmt) (length n : Nat) : ℚ :=
  if fmt.isFloat then ((n : ℚ) + 1) / ((length : ℚ) + 1)
  else ((roundHalfEven ((((2 ^ fmt.bits - 1 : Int) : ℚ)) * ((n : ℚ) + 1)
          / ((length : ℚ) + 1)) : Int) : ℚ)
        / (((2 ^ fmt.bits - 1 : Int) : ℚ))

/-- `crossfade(clipa, clipb, length)`. -/
def crossfade (a b : SClip) (length : Int) : Except Err SClip :=
  if a.width = 0 ∨ a.height = 0 then .error .invalidInput
  else if b.width = 0 ∨ b.height = 0 then .error .invalidInput
  else if a.fmt ≠ b.fmt ∨ a.width ≠ b.width ∨ a.height ≠ b.height then
    .error .invalidInput
  else if length ≤ 0 then
    .ok { a with frames := a.frames ++ b.frames }
  else
    (fun L =>
      (fun fade =>
        .ok { a with frames :=
          (if L < a.frames.length then a.frames.take (a.frames.length - L) else [])
          ++ fade
          ++ (if L < b.frames.length then b.frames.drop L else []) })
      (zipWith3 (fun pa pb w => maskedMergePix pa pb (constPix w))
        (a.frames.drop (a.frames.length - L)) (b.frames.take L)
        ((List.range L).map (fadeWeight a.fmt L))))
    length.toNat

/-- Left-to-right reassembly of the split windows: crossfade or drop the
overlap at every seam, then trim to the original length and remove the
Window Record. -/
def unwindowJoin (fade : Bool) (origLen ov : Int) (windows : List SClip) :
    Except Err SClip :=
  match windows with
  | [] => .error .invalidInput
  | w0 :: rest =>
      (rest.foldl (fun (acc : Except Err SClip) nxt =>
        acc.bind (fun a =>
          if fade ∧ 0 < ov then
            (fun cl =>
              if 0 < cl then crossfade a nxt (cl : Int)
              else .ok { a with frames := a.frames ++ nxt.frames })
            (min (min ov.toNat a.frames.length) nxt.frames.length)
          else
            .ok { a with frames :=
              a.frames ++ (nxt.frames.drop (min ov.toNat nxt.frames.length)) }))
        (Except.ok w0)).bind (fun r =>
      .ok { r with frames := r.frames.take (min origLen.toNat r.frames.length),
                   windowProps := none })

/-- Window splitting followed by reassembly (`unwindow`'s body after the
parameters are settled). -/
def unwindowBody (c : SClip) (fade : Bool) (origLen WL ov : Int) :
    Except Err SClip :=
  unwindowJoin fade origLen ov
    ((List.range ((c.frames.length + WL.toNat - 1) / WL.toNat)).map (fun i =>
      { c with frames := (c.frames.drop (i * WL.toNat)).take WL.toNat }))

/-- `unwindow(clip, fade, full_length, window_length, overlap)`. -/
def unwindow (c : SClip) (fade : Bool)
    (full_length window_length overlap : Option Int) : Except Err SClip :=
  if c.width = 0 ∨ c.height = 0 then .error .invalidInput
  else if (full_length.isSome || window_length.isSome || overlap.isSome) &&
      !(full_length.isSome && window_length.isSome && overlap.isSome) then
    .error .incompleteParameters
  else if full_length.isSome then
    if window_length.getD 0 < 1 then .error .invalidInput
    else if overlap.getD 0 < 0 ∨ window_length.getD 0 ≤ overlap.getD 0 then
      .error .invalidOverlap
    else
      unwindowBody c fade (full_length.getD 0) (window_length.getD 0) (overlap.getD 0)
  else
    match c.windowProps with
    | none => .error .missingMetadata
    | some wp => unwindowBody c fade wp.orig_length wp.window_length wp.overlap

/-- The condition under which `tpad`'s pad-content generators accept the
mode. -/
def tpadModeOk (mode : PadArg) (fmt : Fmt) : Bool :=
  match mode with
  | .str s =>
      decide (s = "mirror") || decide (s = "loop") || decide (s = "repeat")
        || colorModeOk (.str s) fmt
  | .num v => colorModeOk (.num v) fmt
  | .lst vs => colorModeOk (.lst vs) fmt
  | .none' => colorModeOk .none' fmt

lemma ceil_mul_ge (n pp : Nat) (hpp : 0 < pp) : n ≤ ((n + pp - 1) / pp) * pp := by
  have hd := Nat.div_add_mod (n + pp - 1) pp
  have hm : (n + pp - 1) % pp < pp := Nat.mod_lt _ hpp
  have hcomm : ((n + pp - 1) / pp) * pp = pp * ((n + pp - 1) / pp) := Nat.mul_comm _ _
  omega

lemma concatRepeat_length (l : List Pix) (k : Nat) :
    (concatRepeat l k).length = k * l.length := by
  unfold concatRepeat
  rw [List.length_flatten, List.map_replicate, List.sum_replicate, smul_eq_mul]

lemma concatRepeat_take_length (l : List Pix) (n : Nat) (hl : l ≠ []) :
    ((concatRepeat l ((n + l.length - 1) / max 1 l.length)).take n).length = n := by
  have hlp : 0 < l.length := List.length_pos.mpr hl
  have hmax : max 1 l.length = l.length := by omega
  rw [List.length_take, concatRepeat_length, hmax]
  have := ceil_mul_ge n l.length hlp
  omega

lemma colorModeOk_cases (fmt : Fmt) (m : PadArg) (hm : colorModeOk m fmt = true) :
    normalize_color m fmt = .ok .default' ∨
    ∃ vs, normalize_color m fmt = .ok (.vals vs) := by
  unfold colorModeOk at hm
  cases hcol : normalize_color m fmt with
  | error e => rw [hcol] at hm; simp at hm
  | ok col =>
      cases col with
      | default' => exact Or.inl rfl
      | vals vs => exact Or.inr ⟨vs, rfl⟩
      | notColor => rw [hcol] at hm; simp at hm

lemma tpadModeOk_str_color (fmt : Fmt) (s : String)
    (hmode : tpadModeOk (.str s) fmt = true)
    (hmir : s ≠ "mirror") (hloop : s ≠ "loop") (hrep : s ≠ "repeat") :
    colorModeOk (.str s) fmt = true := by
  unfold tpadModeOk at hmode
  rcases Bool.or_eq_true_iff.mp hmode with h | h
  · rcases Bool.or_eq_true_iff.mp h with h' | h'
    · rcases Bool.or_eq_true_iff.mp h' with h'' | h''
      · exact absurd (of_decide_eq_true h'') hmir
      · exact absurd (of_decide_eq_true h'') hloop
    · exact absurd (of_decide_eq_true h') hrep
  · exact h

lemma endPad_spec (fmt : Fmt) (frames : List Pix) (n : Nat) (mode : PadArg)
    (hne : frames ≠ []) (hmode : tpadModeOk mode fmt = true) :
    ∃ out, endPad fmt frames n mode = .ok out ∧ out.length = n := by
  have hlp : 0 < frames.length := List.length_pos.mpr hne
  cases mode with
  | str s =>
      simp only [endPad]
      by_cases hmir : s = "mirror"
      · rw [if_pos hmir]
        by_cases h1 : frames.length = 1
        · rw [if_pos h1]
          exact ⟨_, rfl, List.length_replicate _ _⟩
        · rw [if_neg h1]
          refine ⟨_, rfl, ?_⟩
          apply concatRepeat_take_length
          intro hcon
          have hlen := congrArg List.length hcon
          rw [List.length_append, List.length_reverse, List.length_dropLast,
            List.length_drop] at hlen
          simp only [List.length_nil] at hlen
          omega
      · rw [if_neg hmir]
        by_cases hloop : s = "loop"
        · rw [if_pos hloop]
          by_cases h1 : frames.length = 1
          · rw [if_pos h1]
            exact ⟨_, rfl, List.length_replicate _ _⟩
          · rw [if_neg h1]
            exact ⟨_, rfl, concatRepeat_take_length frames n hne⟩
        · rw [if_neg hloop]
          by_cases hrep : s = "repeat"
          · rw [if_pos hrep]
            exact ⟨_, rfl, List.length_replicate _ _⟩
          · rw [if_neg hrep]
            rcases colorModeOk_cases fmt (.str s)
                (tpadModeOk_str_color fmt s hmode hmir hloop hrep) with h | ⟨vs, h⟩
            · rw [h]
              exact ⟨_, rfl, List.length_replicate _ _⟩
            · rw [h]
              exact ⟨_, rfl, List.length_replicate _ _⟩
  | num v =>
      simp only [endPad]
      rcases colorModeOk_cases fmt (.num v) hmode with h | ⟨vs, h⟩
      · rw [h]
        exact ⟨_, rfl, List.length_replicate _ _⟩
      · rw [h]
        exact ⟨_, rfl, List.length_replicate _ _⟩
  | lst vs =>
      simp only [endPad]
      rcases colorModeOk_cases fmt (.lst vs) hmode with h | ⟨vs2, h⟩
      · rw [h]
        exact ⟨_, rfl, List.length_replicate _ _⟩
      · rw [h]
        exact ⟨_, rfl, List.length_replicate _ _⟩
  | none' =>
      simp only [endPad]
      rcases colorModeOk_cases fmt .none' hmode with h | ⟨vs, h⟩
      · rw [h]
        exact ⟨_, rfl, List.length_replicate _ _⟩
      · rw [h]
        exact ⟨_, rfl, List.length_replicate _ _⟩

lemma tpadCore_length (fmt : Fmt) (frames : List Pix) (L : Int) (mode : PadArg)
    (hne : frames ≠ []) (hL : 1 ≤ L) (hmode : tpadModeOk mode fmt = true) :
    ∃ tail, tpadCore fmt frames 0 0 (some L) mode =
        .ok (frames ++ tail, ⟨0, (((L - (frames.length : Int)).toNat : Nat) : Int)⟩) ∧
      tail.length = (L - (frames.length : Int)).toNat := by
  by_cases hpos : 0 < (L - (frames.length : Int)).toNat
  · obtain ⟨tail, htail, hlen⟩ :=
      endPad_spec fmt frames (L - (frames.length : Int)).toNat mode hne hmode
    refine ⟨tail, ?_, hlen⟩
    rw [tpadCore]
    rw [if_neg (by simp)]
    rw [if_neg (by simp only [Option.getD_some]; omega)]
    rw [if_neg (by simp)]
    simp only [if_neg (lt_irrefl 0), if_pos hpos, htail, Except.bind]
    simp
  · have h0 : (L - (frames.length : Int)).toNat = 0 := by omega
    refine ⟨[], ?_, by rw [h0]; rfl⟩
    rw [tpadCore]
    rw [if_neg (by simp)]
    rw [if_neg (by simp only [Option.getD_some]; omega)]
    rw [if_neg (by simp)]
    simp only [h0, if_neg (lt_irrefl 0), Except.bind]
    simp

/-- Claim C10: `tpad` with `length = L >= 1` and `start = end = 0` never
removes frames: the output has `max num_frames L` frames, carries a
temporal-pad record with `start_pad = 0` and `end_pad = max 0 (L - num_frames)`,
and when `L <= num_frames` the frame list is returned unchanged. -/
theorem tpad_length_mode (c : SClip) (L : Int) (mode : PadArg)
    (hW : c.width ≠ 0) (hH : c.height ≠ 0) (hne : c.frames ≠ [])
    (hL : 1 ≤ L) (hmode : tpadModeOk mode c.fmt = true) :
    ∃ out, tpad c 0 0 (some L) mode = .ok out ∧
      out.frames.length = max c.frames.length L.toNat ∧
      out.tpadProps = some ⟨0, max 0 (L - (c.frames.length : Int))⟩ ∧
      (L ≤ (c.frames.length : Int) → out.frames = c.frames) := by
  obtain ⟨tail, hcore, hlen⟩ := tpadCore_length c.fmt c.frames L mode hne hL hmode
  have hmax : (((L - (c.frames.length : Int)).toNat : Nat) : Int) =
      max 0 (L - (c.frames.length : Int)) := by omega
  refine ⟨{ c with
              frames := c.frames ++ tail
              tpadProps :=
                some ⟨0, (((L - (c.frames.length : Int)).toNat : Nat) : Int)⟩ },
    ?_, ?_, ?_, ?_⟩
  · rw [tpad, if_neg (by simp [hW, hH]), hcore]
    rfl
  · simp only [List.length_append, hlen]
    omega
  · simp only [hmax]
  · intro hle
    have h0 : (L - (c.frames.length : Int)).toNat = 0 := by omega
    have htail : tail = [] := List.length_eq_zero.mp (by rw [hlen, h0])
    simp [htail]

/-- Witness for C10 at a concrete clip: one frame padded to length 3 with
mode "repeat". -/
theorem tpad_length_mode_witness :
    (clipA.width ≠ 0 ∧ clipA.height ≠ 0 ∧ clipA.frames ≠ [] ∧ (1 : Int) ≤ 3 ∧
      tpadModeOk (.str "repeat") clipA.fmt = true) ∧
    (∃ out, tpad clipA 0 0 (some 3) (.str "repeat") = .ok out ∧
      out.frames.length = max clipA.frames.length (3 : Int).toNat ∧
      out.tpadProps = some ⟨0, max 0 (3 - (clipA.frames.length : Int))⟩ ∧
      ((3 : Int) ≤ (clipA.frames.length : Int) → out.frames = clipA.frames)) :=
  ⟨⟨by decide, by decide, by simp [clipA], by decide, by decide⟩,
   tpad_length_mode clipA 3 (.str "repeat") (by decide) (by decide)
     (by simp [clipA]) (by decide) (by decide)⟩

lemma roundHalfEven_le_half (q : ℚ) : (roundHalfEven q : ℚ) ≤ q + 1/2 := by
  have hfl : (⌊q⌋ : ℚ) ≤ q := Int.floor_le q
  have hfl2 : q < (⌊q⌋ : ℚ) + 1 := Int.lt_floor_add_one q
  unfold roundHalfEven
  by_cases h1 : q - (⌊q⌋ : ℚ) < 1/2
  · rw [if_pos h1]
    linarith
  · rw [if_neg h1]
    push_neg at h1
    by_cases h2 : 1/2 < q - (⌊q⌋ : ℚ)
    · rw [if_pos h2]
      push_cast
      linarith
    · rw [if_neg h2]
      push_neg at h2
      by_cases h3 : ⌊q⌋ % 2 = 0
      · rw [if_pos h3]
        linarith
      · rw [if_neg h3]
        push_cast
        linarith

lemma roundHalfEven_ge_half (q : ℚ) : q - 1/2 ≤ (roundHalfEven q : ℚ) := by
  have hfl : (⌊q⌋ : ℚ) ≤ q := Int.floor_le q
  have hfl2 : q < (⌊q⌋ : ℚ) + 1 := Int.lt_floor_add_one q
  unfold roundHalfEven
  by_cases h1 : q - (⌊q⌋ : ℚ) < 1/2
  · rw [if_pos h1]
    linarith
  · rw [if_neg h1]
    push_neg at h1
    by_cases h2 : 1/2 < q - (⌊q⌋ : ℚ)
    · rw [if_pos h2]
      push_cast
      linarith
    · rw [if_neg h2]
      push_neg at h2
      by_cases h3 : ⌊q⌋ % 2 = 0
      · rw [if_pos h3]
        linarith
      · rw [if_neg h3]
        push_cast
        linarith

lemma fmt_peak_ge (fmt : Fmt) (hbits : 8 ≤ fmt.bits) :
    (255 : ℚ) ≤ (((2 ^ fmt.bits - 1 : Int)) : ℚ) := by
  have h : (2 : Int) ^ 8 ≤ 2 ^ fmt.bits :=
    pow_le_pow_right (by norm_num) hbits
  have h2 : (256 : Int) ≤ 2 ^ fmt.bits := by norm_num at h; exact h
  have h3 : (255 : Int) ≤ 2 ^ fmt.bits - 1 := by omega
  exact_mod_cast h3

lemma fadeWeight_bounds (fmt : Fmt) (hbits : 8 ≤ fmt.bits) (n : Nat) (hn : n < 3) :
    0 < fadeWeight fmt 3 n ∧ fadeWeight fmt 3 n < 1 := by
  have hnq : ((n : ℚ) + 1) ≤ 3 := by
    have : (n : ℚ) ≤ 2 := by exact_mod_cast Nat.lt_succ_iff.mp hn
    linarith
  have hnq0 : (1 : ℚ) ≤ (n : ℚ) + 1 := le_add_of_nonneg_left (Nat.cast_nonneg n)
  unfold fadeWeight
  by_cases hf : fmt.isFloat
  · rw [if_pos hf]
    constructor
    · positivity
    · rw [div_lt_one (show (0 : ℚ) < ((3 : Nat) : ℚ) + 1 by positivity)]
      push_cast
      linarith
  · rw [if_neg hf]
    have hP := fmt_peak_ge fmt hbits
    set P : ℚ := (((2 ^ fmt.bits - 1 : Int)) : ℚ) with hPdef
    have hP0 : 0 < P := by linarith
    have h4 : (((3 : Nat) : ℚ) + 1) = 4 := by norm_num
    rw [h4]
    have hlo := roundHalfEven_ge_half (P * ((n : ℚ) + 1) / 4)
    have hhi := roundHalfEven_le_half (P * ((n : ℚ) + 1) / 4)
    constructor
    · apply div_pos _ hP0
      linarith [mul_le_mul_of_nonneg_left hnq0 (le_of_lt hP0)]
    · rw [div_lt_one hP0]
      linarith [mul_le_mul_of_nonneg_left hnq (le_of_lt hP0)]

lemma fadeWeight_strictMono (fmt : Fmt) (hbits : 8 ≤ fmt.bits) (n : Nat) :
    fadeWeight fmt 3 n < fadeWeight fmt 3 (n + 1) := by
  have hc : (((n + 1 : Nat)) : ℚ) = (n : ℚ) + 1 := by push_cast; ring
  unfold fadeWeight
  by_cases hf : fmt.isFloat
  · simp only [if_pos hf]
    rw [hc]
    have h4 : (((3 : Nat) : ℚ) + 1) = 4 := by norm_num
    rw [h4]
    rw [div_lt_div_iff (show (0 : ℚ) < 4 by norm_num) (show (0 : ℚ) < 4 by norm_num)]
    linarith
  · simp only [if_neg hf]
    rw [hc]
    have hP := fmt_peak_ge fmt hbits
    set P : ℚ := (((2 ^ fmt.bits - 1 : Int)) : ℚ) with hPdef
    have hP0 : 0 < P := by linarith
    have h4 : (((3 : Nat) : ℚ) + 1) = 4 := by norm_num
    rw [h4]
    rw [div_lt_div_iff hP0 hP0]
    have hhi := roundHalfEven_le_half (P * ((n : ℚ) + 1) / 4)
    have hlo := roundHalfEven_ge_half (P * ((n : ℚ) + 1 + 1) / 4)
    have hkey : (roundHalfEven (P * ((n : ℚ) + 1) / 4) : ℚ)
        < (roundHalfEven (P * ((n : ℚ) + 1 + 1) / 4) : ℚ) := by
      have he : P * ((n : ℚ) + 1 + 1) / 4 - P * ((n : ℚ) + 1) / 4 = P / 4 := by
        ring
      linarith
    exact mul_lt_mul_of_pos_right hkey hP0

/-- Claim C8: for format-matched clips, `crossfade` with `length <= 0` returns
the plain concatenation of the two frame sequences; and for `length = 3` the
blend weights `w_i` of the three blended frames are strictly increasing and
strictly between 0 and 1. -/
theorem crossfade_concat_and_weights (a b : SClip) (length : Int)
    (hwa : ¬(a.width = 0 ∨ a.height = 0)) (hwb : ¬(b.width = 0 ∨ b.height = 0))
    (hfmt : a.fmt = b.fmt) (hw : a.width = b.width) (hh : a.height = b.height)
    (hlen : length ≤ 0) (hbits : 8 ≤ a.fmt.bits) :
    crossfade a b length = .ok { a with frames := a.frames ++ b.frames } ∧
    (fadeWeight a.fmt 3 0 < fadeWeight a.fmt 3 1 ∧
      fadeWeight a.fmt 3 1 < fadeWeight a.fmt 3 2) ∧
    (∀ n, n < 3 → 0 < fadeWeight a.fmt 3 n ∧ fadeWeight a.fmt 3 n < 1) := by
  refine ⟨?_,
    ⟨fadeWeight_strictMono a.fmt hbits 0, fadeWeight_strictMono a.fmt hbits 1⟩,
    fun n hn => fadeWeight_bounds a.fmt hbits n hn⟩
  rw [crossfade, if_neg hwa, if_neg hwb,
    if_neg (show ¬(a.fmt ≠ b.fmt ∨ a.width ≠ b.width ∨ a.height ≠ b.height) by
      push_neg
      exact ⟨hfmt, hw, hh⟩),
    if_pos hlen]

/-- Witness for C8 at a concrete pair of clips and `length = 0`. -/
theorem crossfade_concat_and_weights_witness :
    (¬(clipA.width = 0 ∨ clipA.height = 0) ∧ clipA.fmt = clipA.fmt ∧
      (0 : Int) ≤ 0 ∧ 8 ≤ clipA.fmt.bits) ∧
    (crossfade clipA clipA 0 =
        .ok { clipA with frames := clipA.frames ++ clipA.frames } ∧
      (fadeWeight clipA.fmt 3 0 < fadeWeight clipA.fmt 3 1 ∧
        fadeWeight clipA.fmt 3 1 < fadeWeight clipA.fmt 3 2) ∧
      (∀ n, n < 3 → 0 < fadeWeight clipA.fmt 3 n ∧ fadeWeight clipA.fmt 3 n < 1)) :=
  ⟨⟨by decide, rfl, by decide, by decide⟩,
   crossfade_concat_and_weights clipA clipA 0 (by decide) (by decide) rfl rfl rfl
     (by decide) (by decide)⟩

/-- Witness for the amended C5: the 15×8 frame padded by 5 on the left (20×8)
resized 2-fold to 40×16; auto-crop removes exactly margin 10 on the left. -/
theorem crop_auto_rescale_witness :
    ((0 : Int) < 2 ∧ (0 : Int) < 15 ∧ (0 : Int) < 8 ∧ fmt0.subW ∣ (5 : Int) ∧
      fmt0.subW ∣ (0 : Int) ∧ fmt0.subH ∣ (0 : Int)) ∧
    (∃ out,
      crop { fmt := fmt0, width := ((2 : Int) * (15 + 5 + 0)).toNat,
             height := ((2 : Int) * (8 + 0 + 0)).toNat, frames := [pix0],
             padProps := some ⟨15, 8, 5, 0, 0, 0⟩, tileProps := none,
             windowProps := none, tpadProps := none }
          none none none none = .ok out ∧
      out.width = ((2 : Int) * 15).toNat ∧
      out.height = ((2 : Int) * 8).toNat ∧
      out.padProps = none) :=
  ⟨⟨by decide, by decide, by decide, ⟨5, rfl⟩, ⟨0, rfl⟩, ⟨0, rfl⟩⟩,
   by
    obtain ⟨out, h1, h2, h3, h4, _, _⟩ :=
      crop_auto_rescale fmt0 [pix0] none none none ⟨15, 8, 5, 0, 0, 0⟩ 2
        (by decide) (by decide) (by decide) (by decide) (by decide)
        (by decide) (by decide) ⟨5, rfl⟩ ⟨0, rfl⟩ ⟨0, rfl⟩ ⟨0, rfl⟩
    exact ⟨out, h1, h2, h3, h4⟩⟩

/-- Claim C9 counterexample: a scalar number given as `padding` is recorded as
`"none"`, not `"color"`, and a mode string is copied verbatim rather than
lowercased (`"MIRROR"` stays `"MIRROR"` when every window is exact-fit). -/
theorem window_tag_counterexample :
    (window clipA 1 0 (.num 128)).map (fun r => r.windowProps)
        = .ok (some ⟨1, 1, 0, "none"⟩) ∧
    (window clipA 1 0 (.str "MIRROR")).map (fun r => r.windowProps)
        = .ok (some ⟨1, 1, 0, "MIRROR"⟩) ∧
    "none" ≠ "color" ∧ "MIRROR" ≠ "mirror" :=
  ⟨rfl, rfl, by decide, by decide⟩

/-- Claim C9 (amended): every successful `window` call records a padding tag
equal to `windowTag padding`: the mode string verbatim when a string was
given (not lowercased and unvalidated when every window is exact-fit),
`"color"` only when a list color was given, and `"none"` otherwise — in
particular `"none"`, not `"color"`, for a scalar number color. -/
theorem window_tag_normalization (c : SClip) (length overlap : Int)
    (padding : PadArg) (out : SClip)
    (h : window c length overlap padding = .ok out) :
    out.windowProps
      = some ⟨(c.frames.length : Int), length, overlap, windowTag padding⟩ := by
  rw [window] at h
  by_cases h1 : c.width = 0 ∨ c.height = 0
  · rw [if_pos h1] at h
    exact absurd h (by simp)
  · rw [if_neg h1] at h
    by_cases h2 : length < 1
    · rw [if_pos h2] at h
      exact absurd h (by simp)
    · rw [if_neg h2] at h
      by_cases h3 : overlap < 0 ∨ length ≤ overlap
      · rw [if_pos h3] at h
        exact absurd h (by simp)
      · rw [if_neg h3] at h
        cases hws : windowLoop c.fmt c.frames length.toNat
            (length.toNat - overlap.toNat) padding c.frames.length 0 with
        | error e =>
            rw [hws] at h
            exact absurd h (by simp [Except.map])
        | ok ws =>
            rw [hws] at h
            simp only [Except.map, Except.ok.injEq] at h
            rw [← h]

/-- Witness for the amended C9 at a concrete clip with `padding = "repeat"`. -/
theorem window_tag_normalization_witness :
    SClip.windowProps { clipA with
                        frames := [pix0]
                        windowProps := some ⟨1, 1, 0, "repeat"⟩ }
      = some ⟨(clipA.frames.length : Int), 1, 0, windowTag (.str "repeat")⟩ :=
  window_tag_normalization clipA 1 0 (.str "repeat") _ rfl

lemma windowLoop_stride1_none (seq : List Pix) :
    ∀ fuel start, seq.length ≤ start + fuel →
      ∃ ws, windowLoop fmt0 seq 1 1 .none' fuel start = .ok ws ∧
        ws.length = seq.length - start ∧ ws.flatten.length = seq.length - start := by
  intro fuel
  induction fuel with
  | zero =>
      intro start h
      refine ⟨[], rfl, ?_, ?_⟩ <;> simp <;> omega
  | succ fuel ih =>
      intro start h
      by_cases hs : start < seq.length
      · obtain ⟨ws', hws', hl', hf'⟩ := ih (start + 1) (by omega)
        have hw : ((seq.drop start).take 1).length = 1 := by
          rw [List.length_take, List.length_drop]
          omega
        refine ⟨(seq.drop start).take 1 :: ws', ?_, ?_, ?_⟩
        · rw [windowLoop, if_pos hs]
          simp only []
          rw [if_neg (by rw [hw]; omega), hws']
          rfl
        · simp only [List.length_cons, hl']
          omega
        · simp only [List.flatten_cons, List.length_append, hw, hf']
          omega
      · refine ⟨[], ?_, ?_, ?_⟩
        · rw [windowLoop, if_neg hs]
        · simp
          omega
        · simp
          omega

/-- Concrete 1025-frame clip used to exhibit the missing window cap. -/
def clip1025 : SClip :=
  { fmt := fmt0, width := 2, height := 2, frames := List.replicate 1025 pix0 }

/-- Claim C4 counterexample: `window` enforces no `MAX_CHUNKS` bound —
splitting 1025 frames into 1025 one-frame windows succeeds instead of
failing with `TooManyChunks`. -/
theorem window_no_cap_counterexample :
    (∃ out, window clip1025 1 0 .none' = .ok out ∧
      out.frames.length = 1025 ∧
      out.windowProps = some ⟨1025, 1, 0, "none"⟩) ∧
    1024 < 1025 := by
  obtain ⟨ws, hws, hlen, hflat⟩ :=
    windowLoop_stride1_none (List.replicate 1025 pix0) 1025 0
      (by rw [List.length_replicate])
  have hstep : window clip1025 1 0 .none'
      = .ok { clip1025 with
              frames := ws.flatten
              windowProps := some ⟨(clip1025.frames.length : Int), 1, 0,
                windowTag .none'⟩ } := by
    rw [window]
    rw [if_neg (by decide), if_neg (by decide), if_neg (by decide)]
    have h3 : clip1025.frames.length = 1025 := by
      show (List.replicate 1025 pix0).length = 1025
      rw [List.length_replicate]
    have harg : windowLoop clip1025.fmt clip1025.frames (1 : Int).toNat
        ((1 : Int).toNat - (0 : Int).toNat) .none' clip1025.frames.length 0
        = .ok ws := by
      rw [h3]
      show windowLoop fmt0 (List.replicate 1025 pix0) (1 : Int).toNat
        ((1 : Int).toNat - (0 : Int).toNat) .none' 1025 0 = .ok ws
      exact hws
    rw [harg]
    rfl
  refine ⟨⟨_, hstep, ?_, ?_⟩, by omega⟩
  · show ws.flatten.length = 1025
    rw [hflat, List.length_replicate]
  · show some ((⟨(clip1025.frames.length : Int), 1, 0,
        windowTag .none'⟩ : WindowProps)) = some ⟨1025, 1, 0, "none"⟩
    have h3 : (clip1025.frames.length : Int) = 1025 := by
      show ((List.replicate 1025 pix0).length : Int) = 1025
      rw [List.length_replicate]
      norm_num
    rw [h3]
    rfl

/-- Claim C4 (amended): the `max_tiles = 1024` cap applies to the 2-D
operations only — `tile` (both padding branches) and `untile` fail with
`TooManyChunks` when `tiles_x * tiles_y > 1024`; `window` has no such cap. -/
theorem tooManyChunks_cap (c : SClip) (width height : Int) (ov : OvArg)
    (padding : PadArg) (ext : ExtFill)
    (h0 : ¬(c.width = 0 ∨ c.height = 0))
    (h1 : ¬(width ≤ 1 ∨ height ≤ 1))
    (h2 : ¬(ovW ov < 0 ∨ ovH ov < 0))
    (h3 : ¬(width ≤ ovW ov ∨ height ≤ ovH ov))
    (h4 : check_modulus width c.fmt.subW ∧ check_modulus height c.fmt.subH ∧
          check_modulus (ovW ov) c.fmt.subW ∧ check_modulus (ovH ov) c.fmt.subH)
    (hfit : padding = .str "discard" →
      ¬(c.width < width.toNat ∨ c.height < height.toNat))
    (hmode : padding ≠ .str "discard" → tileModeOk padding = true)
    (hcount : max_tiles <
      tileCountX c width.toNat (width.toNat - (ovW ov).toNat) padding *
      tileCountY c height.toNat (height.toNat - (ovH ov).toNat) padding) :
    tile c width height ov padding ext = .error .tooManyChunks ∧
    (∀ (fade : Bool) (fw fh : Int) (ov2 : OvArg) (g : UntileGeom)
        (gH gV : Nat → Nat → Pix),
      untileGeomManual c fw fh ov2 = .ok g →
      (max_tiles : Int) < g.tiles_x * g.tiles_y →
      untile c fade (some fw) (some fh) (some ov2) gH gV
        = .error .tooManyChunks) := by
  constructor
  · rw [tile, if_neg h0, if_neg h1, if_neg h2, if_neg h3,
      if_neg (not_not_intro h4)]
    have hprep : tilePrep c width.toNat height.toNat
        (width.toNat - (ovW ov).toNat) (height.toNat - (ovH ov).toNat)
        padding ext = .error .tooManyChunks := by
      rw [tilePrep]
      by_cases hd : padding = .str "discard"
      · rw [if_pos hd, if_neg (hfit hd)]
        unfold tileCountX tileCountY at hcount
        rw [if_pos hd, if_pos hd] at hcount
        rw [if_pos hcount]
      · rw [if_neg hd, if_neg (not_not_intro (hmode hd))]
        unfold tileCountX tileCountY at hcount
        rw [if_neg hd, if_neg hd] at hcount
        rw [if_pos hcount]
    rw [hprep]
    rfl
  · intro fade fw fh ov2 g gH gV hg hbig
    rw [untile, if_neg h0]
    rw [if_neg (by simp)]
    rw [if_pos (by simp)]
    simp only [Option.getD_some]
    rw [hg]
    show untileAssemble c fade g gH gV = .error .tooManyChunks
    rw [untileAssemble, if_pos hbig]

/-- Concrete 40×40 clip for the `tile`/`untile` cap witness. -/
def clip40 : SClip := { fmt := fmt0, width := 40, height := 40, frames := [pix0] }

/-- Witness for the amended C4: 2×2 tiles with overlap 1 on a 40×40 clip give
39 × 39 = 1521 > 1024 tiles. -/
theorem tooManyChunks_cap_witness :
    (max_tiles <
      tileCountX clip40 (2 : Int).toNat ((2 : Int).toNat - (ovW (.one 1)).toNat)
          (.str "black") *
      tileCountY clip40 (2 : Int).toNat ((2 : Int).toNat - (ovH (.one 1)).toNat)
          (.str "black")) ∧
    (tile clip40 2 2 (.one 1) (.str "black") extFill0
        = .error .tooManyChunks ∧
      (∀ (fade : Bool) (fw fh : Int) (ov2 : OvArg) (g : UntileGeom)
          (gH gV : Nat → Nat → Pix),
        untileGeomManual clip40 fw fh ov2 = .ok g →
        (max_tiles : Int) < g.tiles_x * g.tiles_y →
        untile clip40 fade (some fw) (some fh) (some ov2) gH gV
          = .error .tooManyChunks)) :=
  ⟨by decide,
   tooManyChunks_cap clip40 2 2 (.one 1) (.str "black") extFill0
     (by decide) (by decide) (by decide) (by decide)
     ⟨by decide, by decide, by decide, by decide⟩
     (fun hd => absurd hd (by decide)) (fun _ => by decide) (by decide)⟩

lemma tpadCore_repeat (fmt : Fmt) (w : List Pix) (L : Int) (hL : 1 ≤ L) :
    tpadCore fmt w 0 0 (some L) (.str "repeat")
      = .ok (w ++ List.replicate (L - (w.length : Int)).toNat (w.getLastD pix0),
             ⟨0, ((((L - (w.length : Int)).toNat : Nat)) : Int)⟩) := by
  rw [tpadCore]
  rw [if_neg (by simp)]
  rw [if_neg (by simp only [Option.getD_some]; omega)]
  rw [if_neg (by simp)]
  by_cases hpos : 0 < (L - (w.length : Int)).toNat
  · have hend : endPad fmt w (L - (w.length : Int)).toNat (.str "repeat")
        = .ok (List.replicate (L - (w.length : Int)).toNat (w.getLastD pix0)) := by
      simp only [endPad]
      simp
    simp only [if_neg (lt_irrefl 0), if_pos hpos, hend, Except.bind]
    simp
  · have h0 : (L - (w.length : Int)).toNat = 0 := by omega
    simp only [h0, if_neg (lt_irrefl 0), Except.bind]
    simp

/-- The list of windows produced by `windowLoop` in `"repeat"` mode, as a
standalone recursion on the remaining suffix: a full `Ln`-frame slice, or a
short final slice padded by repeating its own last frame. -/
def mkWindows (Ln sn : Nat) : Nat → List Pix → List (List Pix)
  | 0, _ => []
  | _ + 1, [] => []
  | fuel + 1, a :: rest =>
      ((a :: rest).take Ln ++ List.replicate (Ln - ((a :: rest).take Ln).length)
          (((a :: rest).take Ln).getLastD pix0))
        :: mkWindows Ln sn fuel ((a :: rest).drop sn)

lemma mkWindows_nil (Ln sn : Nat) : ∀ fuel, mkWindows Ln sn fuel [] = []
  | 0 => rfl
  | _ + 1 => rfl

lemma mkWindows_mem_length (Ln sn : Nat) :
    ∀ fuel t w, w ∈ mkWindows Ln sn fuel t → w.length = Ln := by
  intro fuel
  induction fuel with
  | zero =>
      intro t w h
      cases t <;> simp only [mkWindows] at h <;> cases h
  | succ fuel ih =>
      intro t w h
      cases t with
      | nil =>
          simp only [mkWindows] at h
          cases h
      | cons a rest =>
          rw [mkWindows] at h
          rcases List.mem_cons.mp h with h | h
          · subst h
            rw [List.length_append, List.length_replicate, List.length_take]
            omega
          · exact ih _ _ h

lemma getLastD_of_ne_nil (l : List Pix) (d1 d2 : Pix) (h : l ≠ []) :
    l.getLastD d1 = l.getLastD d2 := by
  cases l with
  | nil => exact absurd rfl h
  | cons a t => rw [List.getLastD_cons, List.getLastD_cons]

lemma getLastD_drop (t : List Pix) (k : Nat) (h : k < t.length) :
    (t.drop k).getLastD pix0 = t.getLastD pix0 := by
  induction t generalizing k with
  | nil => simp at h
  | cons a t' ih =>
      cases k with
      | zero => rfl
      | succ k =>
          rw [List.drop_succ_cons, List.getLastD_cons]
          have hk : k < t'.length := by
            simp only [List.length_cons] at h
            omega
          have ht' : t' ≠ [] := by
            intro hc
            rw [hc] at hk
            simp at hk
          rw [ih k hk]
          exact getLastD_of_ne_nil t' pix0 a ht'

lemma windowLoop_repeat (fmt : Fmt) (seq : List Pix) (Ln sn : Nat)
    (hLn1 : 1 ≤ Ln) (hsn : 1 ≤ sn) :
    ∀ fuel start, seq.length ≤ start + fuel →
      windowLoop fmt seq Ln sn (.str "repeat") fuel start
        = .ok (mkWindows Ln sn fuel (seq.drop start)) := by
  intro fuel
  induction fuel with
  | zero =>
      intro start h
      have ht : seq.drop start = [] := List.drop_eq_nil_of_le (by omega)
      rw [ht, mkWindows_nil]
      rfl
  | succ fuel ih =>
      intro start h
      by_cases hs : start < seq.length
      · obtain ⟨a, rest, har⟩ : ∃ a rest, seq.drop start = a :: rest := by
          cases hds : seq.drop start with
          | nil =>
              exfalso
              have := congrArg List.length hds
              rw [List.length_drop] at this
              simp only [List.length_nil] at this
              omega
          | cons a r => exact ⟨a, r, rfl⟩
        rw [windowLoop, if_pos hs, har, mkWindows, ← har, List.drop_drop]
        by_cases hlen : ((seq.drop start).take Ln).length < Ln
        · simp only [if_pos hlen]
          rw [if_neg (show ¬(("repeat" : String) = "discard") by decide)]
          rw [if_neg (show ¬(("repeat" : String) = "none") by decide)]
          rw [if_pos (show ("repeat" : String) = "mirror" ∨ ("repeat" : String) = "loop"
              ∨ True ∨ ("repeat" : String) = "black" from
            Or.inr (Or.inr (Or.inl trivial)))]
          rw [tpadCore_repeat fmt ((seq.drop start).take Ln) (Ln : Int)
            (by exact_mod_cast hLn1)]
          simp only [Except.bind]
          rw [ih (start + sn) (by omega)]
          simp only [Except.map]
          have hcnt : ((Ln : Int) - ((((seq.drop start).take Ln).length : Nat) : Int)).toNat
              = Ln - ((seq.drop start).take Ln).length := by omega
          rw [hcnt]
        · simp only [if_neg hlen]
          rw [ih (start + sn) (by omega)]
          simp only [Except.map]
          have h0 : Ln - ((seq.drop start).take Ln).length = 0 := by omega
          rw [h0, List.replicate_zero, List.append_nil]
      · rw [windowLoop, if_neg hs]
        have ht : seq.drop start = [] := List.drop_eq_nil_of_le (by omega)
        rw [ht, mkWindows_nil]

lemma dropJoin_mkWindows (Ln sn On : Nat) (hsn : 0 < sn) (hLn : Ln = sn + On) :
    ∀ fuel t, t ≠ [] → t.length ≤ fuel → sn ∣ t.length →
      (mkWindows Ln sn fuel t).flatMap (fun v => v.drop On)
        = t.drop On ++ List.replicate (min On t.length) (t.getLastD pix0) := by
  intro fuel
  induction fuel with
  | zero =>
      intro t hne hlen hdvd
      exact absurd (List.length_eq_zero.mp (by omega)) hne
  | succ fuel ih =>
      intro t hne hlen hdvd
      have hpos : 0 < t.length := List.length_pos.mpr hne
      have hsnle : sn ≤ t.length := Nat.le_of_dvd hpos hdvd
      obtain ⟨a, rest, har⟩ : ∃ a rest, t = a :: rest := by
        cases t with
        | nil => exact absurd rfl hne
        | cons a r => exact ⟨a, r, rfl⟩
      rw [har, mkWindows, ← har, List.flatMap_cons]
      by_cases hone : t.length = sn
      · have hdrop : t.drop sn = [] := List.drop_eq_nil_of_le (by omega)
        rw [hdrop, mkWindows_nil, List.flatMap_nil, List.append_nil]
        have htake : t.take Ln = t := List.take_of_length_le (by omega)
        rw [htake]
        rw [List.drop_append_eq_append_drop, List.drop_replicate]
        have hcnt : Ln - t.length - (On - t.length) = min On t.length := by omega
        rw [hcnt]
      · have hlt : sn < t.length := by omega
        have ht' : t.drop sn ≠ [] := by
          intro hc
          have := congrArg List.length hc
          rw [List.length_drop] at this
          simp only [List.length_nil] at this
          omega
        have hdvd' : sn ∣ (t.drop sn).length := by
          rw [List.length_drop]
          exact Nat.dvd_sub' hdvd dvd_rfl
        have hlen' : (t.drop sn).length ≤ fuel := by
          rw [List.length_drop]
          omega
        rw [ih (t.drop sn) ht' hlen' hdvd']
        rw [List.length_drop, getLastD_drop t sn hlt]
        by_cases hfull : Ln ≤ t.length
        · have htkl : (t.take Ln).length = Ln := by
            rw [List.length_take]
            omega
          rw [htkl, Nat.sub_self, List.replicate_zero, List.append_nil]
          have e1 : (t.take Ln).drop On = (t.drop On).take sn := by
            rw [List.drop_take]
            congr 1
            omega
          have e2 : (t.drop sn).drop On = (t.drop On).drop sn := by
            rw [List.drop_drop, List.drop_drop]
            congr 1
            omega
          have e3 : min On (t.length - sn) = On := by omega
          have e4 : min On t.length = On := by omega
          rw [e1, e2, e3, e4, ← List.append_assoc, List.take_append_drop]
        · have htake : t.take Ln = t := List.take_of_length_le (by omega)
          rw [htake]
          have hdr' : (t.drop sn).drop On = [] := by
            apply List.drop_eq_nil_of_le
            rw [List.length_drop]
            omega
          rw [hdr', List.nil_append]
          rw [List.drop_append_eq_append_drop, List.drop_replicate]
          rw [List.append_assoc, ← List.replicate_add]
          have hcnt : Ln - t.length - (On - t.length) + min On (t.length - sn)
              = min On t.length := by omega
          rw [hcnt]

lemma join_mkWindows (Ln sn On : Nat) (hsn : 0 < sn) (hLn : Ln = sn + On) :
    ∀ fuel t, t ≠ [] → t.length ≤ fuel → sn ∣ t.length →
      ∃ u us, mkWindows Ln sn fuel t = u :: us ∧
        u ++ us.flatMap (fun v => v.drop On)
          = t ++ List.replicate On (t.getLastD pix0) := by
  intro fuel t hne hlen hdvd
  have hpos : 0 < t.length := List.length_pos.mpr hne
  have hsnle : sn ≤ t.length := Nat.le_of_dvd hpos hdvd
  cases fuel with
  | zero => exact absurd (List.length_eq_zero.mp (by omega)) hne
  | succ fuel =>
      obtain ⟨a, rest, har⟩ : ∃ a rest, t = a :: rest := by
        cases t with
        | nil => exact absurd rfl hne
        | cons a r => exact ⟨a, r, rfl⟩
      rw [har, mkWindows, ← har]
      refine ⟨_, _, rfl, ?_⟩
      by_cases hone : t.length = sn
      · have hdrop : t.drop sn = [] := List.drop_eq_nil_of_le (by omega)
        rw [hdrop, mkWindows_nil, List.flatMap_nil, List.append_nil]
        have htake : t.take Ln = t := List.take_of_length_le (by omega)
        rw [htake]
        have hcnt : Ln - t.length = On := by omega
        rw [hcnt]
      · have hlt : sn < t.length := by omega
        have ht' : t.drop sn ≠ [] := by
          intro hc
          have := congrArg List.length hc
          rw [List.length_drop] at this
          simp only [List.length_nil] at this
          omega
        have hdvd' : sn ∣ (t.drop sn).length := by
          rw [List.length_drop]
          exact Nat.dvd_sub' hdvd dvd_rfl
        have hlen' : (t.drop sn).length ≤ fuel := by
          rw [List.length_drop]
          omega
        rw [dropJoin_mkWindows Ln sn On hsn hLn fuel (t.drop sn) ht' hlen' hdvd']
        rw [List.length_drop, getLastD_drop t sn hlt]
        by_cases hfull : Ln ≤ t.length
        · have htkl : (t.take Ln).length = Ln := by
            rw [List.length_take]
            omega
          rw [htkl, Nat.sub_self, List.replicate_zero, List.append_nil]
          have e2 : (t.drop sn).drop On = t.drop Ln := by
            rw [List.drop_drop]
            congr 1
            omega
          have e3 : min On (t.length - sn) = On := by omega
          rw [e2, e3, ← List.append_assoc, List.take_append_drop]
        · have htake : t.take Ln = t := List.take_of_length_le (by omega)
          rw [htake]
          have hdr' : (t.drop sn).drop On = [] := by
            apply List.drop_eq_nil_of_le
            rw [List.length_drop]
            omega
          rw [hdr', List.nil_append]
          have e3 : min On (t.length - sn) = t.length - sn := by omega
          rw [e3, List.append_assoc, ← List.replicate_add]
          have hcnt : Ln - t.length + (t.length - sn) = On := by omega
          rw [hcnt]

lemma flatten_length_uniform (Ln : Nat) :
    ∀ ws : List (List Pix), (∀ w ∈ ws, w.length = Ln) →
      ws.flatten.length = ws.length * Ln := by
  intro ws
  induction ws with
  | nil =>
      intro _
      simp
  | cons u us ih =>
      intro h
      rw [List.flatten_cons, List.length_append,
        ih (fun w hw => h w (List.mem_cons_of_mem u hw)),
        h u (List.mem_cons_self u us), List.length_cons]
      ring

lemma chunks_flatten (Ln : Nat) :
    ∀ ws : List (List Pix), (∀ w ∈ ws, w.length = Ln) →
      (List.range ws.length).map (fun i => (ws.flatten.drop (i * Ln)).take Ln)
        = ws := by
  intro ws
  induction ws with
  | nil =>
      intro _
      simp
  | cons u us ih =>
      intro h
      rw [List.length_cons, List.range_succ_eq_map, List.map_cons]
      congr 1
      · rw [List.flatten_cons]
        simp only [Nat.zero_mul, List.drop_zero]
        rw [← h u (List.mem_cons_self u us)]
        exact List.take_left u us.flatten
      · rw [List.map_map]
        conv_rhs => rw [← ih (fun w hw => h w (List.mem_cons_of_mem u hw))]
        apply List.map_congr_left
        intro i hi
        show ((u :: us).flatten.drop ((i + 1) * Ln)).take Ln
          = (us.flatten.drop (i * Ln)).take Ln
        rw [List.flatten_cons]
        have harr : (i + 1) * Ln = u.length + i * Ln := by
          rw [h u (List.mem_cons_self u us)]
          ring
        rw [harr, ← List.drop_drop, List.drop_left]

lemma joinFoldl_noFade (ov : Int) :
    ∀ (rest : List SClip) (a : SClip),
      rest.foldl (fun (acc : Except Err SClip) nxt =>
        acc.bind (fun a =>
          if (false : Bool) ∧ 0 < ov then
            (fun cl =>
              if 0 < cl then crossfade a nxt (cl : Int)
              else .ok { a with frames := a.frames ++ nxt.frames })
            (min (min ov.toNat a.frames.length) nxt.frames.length)
          else
            .ok { a with frames :=
              a.frames ++ (nxt.frames.drop (min ov.toNat nxt.frames.length)) }))
        (Except.ok a)
      = .ok { a with frames := (a.frames ++ rest.flatMap
          (fun nxt => nxt.frames.drop (min ov.toNat nxt.frames.length))) } := by
  intro rest
  induction rest with
  | nil =>
      intro a
      rw [List.foldl_nil, List.flatMap_nil, List.append_nil]
  | cons nxt tl ih =>
      intro a
      rw [List.foldl_cons]
      refine Eq.trans (ih { a with frames :=
        a.frames ++ (nxt.frames.drop (min ov.toNat nxt.frames.length)) }) ?_
      simp [List.flatMap_cons, List.append_assoc]

lemma unwindowJoin_noFade (origLen ov : Int) (w0 : SClip) (rest : List SClip) :
    unwindowJoin false origLen ov (w0 :: rest)
      = .ok { w0 with
              frames := ((w0.frames ++ rest.flatMap
                  (fun nxt => nxt.frames.drop (min ov.toNat nxt.frames.length))).take
                (min origLen.toNat (w0.frames ++ rest.flatMap
                  (fun nxt => nxt.frames.drop
                    (min ov.toNat nxt.frames.length))).length))
              windowProps := none } := by
  rw [unwindowJoin]
  rw [joinFoldl_noFade]
  simp only [Except.bind]

lemma flatMap_record_drop (On Ln : Nat) (hOn : On ≤ Ln) (base : SClip) :
    ∀ us : List (List Pix), (∀ v ∈ us, v.length = Ln) →
      (us.map (fun fr => { base with frames := fr })).flatMap
        (fun nxt => nxt.frames.drop (min On nxt.frames.length))
      = us.flatMap (fun v => v.drop On) := by
  intro us
  induction us with
  | nil =>
      intro _
      simp
  | cons v vs ih =>
      intro h
      rw [List.map_cons, List.flatMap_cons, List.flatMap_cons,
        ih (fun x hx => h x (List.mem_cons_of_mem v hx))]
      congr 1
      show v.drop (min On v.length) = v.drop On
      have hv : min On v.length = On := by
        rw [h v (List.mem_cons_self v vs)]
        omega
      rw [hv]

/-- Claim C2: for a clip whose frame count is a (positive) multiple of
`L - O`, composing `window(seq, L, O, "repeat")` with
`unwindow(fade := false)` recovers the original sequence: the output's
first `len seq` frames (indeed all of them) are exactly `seq` in order. -/
theorem window_unwindow_roundtrip (c : SClip) (L O : Int)
    (hwz : ¬(c.width = 0 ∨ c.height = 0))
    (hL : 1 ≤ L) (hO : 0 ≤ O) (hOL : O < L)
    (hne : c.frames ≠ [])
    (hdvd : (L.toNat - O.toNat) ∣ c.frames.length) :
    ∃ w out, window c L O (.str "repeat") = .ok w ∧
      unwindow w false none none none = .ok out ∧
      out.frames = c.frames := by
  have hLn1 : 1 ≤ L.toNat := by omega
  have hsn1 : 1 ≤ L.toNat - O.toNat := by omega
  have hwl := windowLoop_repeat c.fmt c.frames L.toNat (L.toNat - O.toNat)
    hLn1 hsn1 c.frames.length 0 (by omega)
  rw [List.drop_zero] at hwl
  set ws : List (List Pix) :=
    mkWindows L.toNat (L.toNat - O.toNat) c.frames.length c.frames with hws
  have huni : ∀ w ∈ ws, w.length = L.toNat := by
    rw [hws]
    exact fun w hw => mkWindows_mem_length _ _ _ _ _ hw
  obtain ⟨u, us, hcons, hjoin⟩ :=
    join_mkWindows L.toNat (L.toNat - O.toNat) O.toNat (by omega) (by omega)
      c.frames.length c.frames hne (le_refl _) hdvd
  rw [← hws] at hcons
  have hwin : window c L O (.str "repeat")
      = .ok { c with
              frames := ws.flatten
              windowProps := some ⟨(c.frames.length : Int), L, O, "repeat"⟩ } := by
    rw [window, if_neg hwz, if_neg (by omega), if_neg (by omega), hwl]
    rfl
  set wclip : SClip :=
    { c with frames := ws.flatten
             windowProps := some ⟨(c.frames.length : Int), L, O, "repeat"⟩ }
    with hwclip
  have hwf : wclip.frames = ws.flatten := rfl
  have hflat : ws.flatten.length = ws.length * L.toNat :=
    flatten_length_uniform L.toNat ws huni
  have hM : (ws.length * L.toNat + L.toNat - 1) / L.toNat = ws.length := by
    have h1 : ws.length * L.toNat + L.toNat - 1
        = (L.toNat - 1) + L.toNat * ws.length := by
      have := Nat.mul_comm ws.length L.toNat
      omega
    rw [h1, Nat.add_mul_div_left _ _ (show 0 < L.toNat by omega),
      Nat.div_eq_of_lt (by omega)]
    omega
  have hchunks : (List.range ws.length).map
      (fun i => (ws.flatten.drop (i * L.toNat)).take L.toNat) = ws :=
    chunks_flatten L.toNat ws huni
  have husuni : ∀ v ∈ us, v.length = L.toNat := by
    intro v hv
    exact huni v (hcons ▸ List.mem_cons_of_mem u hv)
  have hB : unwindow wclip false none none none
      = .ok { wclip with frames := c.frames, windowProps := none } := by
    have hun1 : unwindow wclip false none none none
        = unwindowBody wclip false (c.frames.length : Int) L O := by
      rw [unwindow]
      rw [if_neg (show ¬(wclip.width = 0 ∨ wclip.height = 0) from hwz)]
      rw [if_neg (by simp)]
      rw [if_neg (by simp)]
    rw [hun1, unwindowBody]
    rw [hwf, hflat, hM]
    rw [show (fun i => ({ wclip with
          frames := (ws.flatten.drop (i * L.toNat)).take L.toNat } : SClip))
        = (fun fr => ({ wclip with frames := fr } : SClip))
          ∘ (fun i => (ws.flatten.drop (i * L.toNat)).take L.toNat) from rfl]
    rw [← List.map_map, hchunks, hcons, List.map_cons]
    rw [unwindowJoin_noFade]
    rw [show ({ wclip with frames := u } : SClip).frames = u from rfl]
    rw [flatMap_record_drop O.toNat L.toNat (by omega) wclip us husuni]
    rw [hjoin]
    rw [List.length_append, List.length_replicate]
    have hmin : min ((c.frames.length : Int)).toNat
        (c.frames.length + O.toNat) = c.frames.length := by omega
    rw [hmin, List.take_left]
  exact ⟨wclip, { wclip with frames := c.frames, windowProps := none },
    hwin, hB, rfl⟩

/-- Witness for C2 at a concrete one-frame clip with `L = 1`, `O = 0`. -/
theorem window_unwindow_roundtrip_witness :
    (¬(clipA.width = 0 ∨ clipA.height = 0) ∧ (1 : Int) ≤ 1 ∧ (0 : Int) ≤ 0 ∧
      (0 : Int) < 1 ∧ clipA.frames ≠ [] ∧
      ((1 : Int).toNat - (0 : Int).toNat) ∣ clipA.frames.length) ∧
    (∃ w out, window clipA 1 0 (.str "repeat") = .ok w ∧
      unwindow w false none none none = .ok out ∧
      out.frames = clipA.frames) :=
  ⟨⟨by decide, by decide, by decide, by decide, by simp [clipA], ⟨1, rfl⟩⟩,
   window_unwindow_roundtrip clipA 1 0 (by decide) (by decide) (by decide)
     (by decide) (by simp [clipA]) ⟨1, rfl⟩⟩

end VsTiletools
